import Mathlib

/-!
# s3-benchmark: the workload engine of `s3-benchmark.go`

A shallow embedding of the upload, download and delete workers of
`s3-benchmark.go` together with the multipart controller they use.

* The package-level variables of the Go program (`upload_count`, `endtime`, ...)
  and the `*sync.Map` of keys are the fields of `State`, passed explicitly.
* The object store and the wall clock are the environment: `World.store k` is the
  outcome of the `k`-th request sent to the store and `World.clock k` is the value
  of the `k`-th `time.Now()`.  A worker is a function of a `World`.
* `int32` counters wrap with `wrapInt32`, `uint64` cursors with `addUint64` and
  `subUint64`, the `int` part number with `wrapInt64`.
* The `for` loops take a fuel argument, handed on to the functions they call; a run
  that uses it up ends in `Run.fault Fault.outOfFuel`, keeping the state reached.
  The traversal `keys.Range` is a recursion on the list of keys.
* Two fields of `State` are observations and not program variables: `trace`, the
  requests sent to the store so far, and `uploads`, the calls of `uploadPart` made
  by `runUploadMultiPart` so far.
-/

namespace S3Benchmark

/-! ## Machine integers -/

/-- Two's complement reduction of an integer to the range of Go's `int32`. -/
def wrapInt32 (x : Int) : Int := (x + 2147483648) % 4294967296 - 2147483648

/-- Two's complement reduction of an integer to the range of Go's `int` (64 bits). -/
def wrapInt64 (x : Int) : Int :=
  (x + 9223372036854775808) % 18446744073709551616 - 9223372036854775808

/-- Addition of two `uint64` values. -/
def addUint64 (a b : Nat) : Nat := (a + b) % 18446744073709551616

/-- Subtraction of two `uint64` values (both below `2 ^ 64`). -/
def subUint64 (a b : Nat) : Nat := (a + 18446744073709551616 - b) % 18446744073709551616

/-- Retry budget of `uploadPart`: `const maxRetries = 3`. -/
def maxRetries : Int := 3

/-- Value of `bytefmt.GIGABYTE` (`1024 * 1024 * 1024`). -/
def GIGABYTE : Nat := 1073741824

/-! ## Data model -/

/-- Key of an object, `fmt.Sprintf("Object-%d", objnum)`, kept as its number. -/
structure ObjectKey where
  objnum : Int
deriving DecidableEq, Repr

/-- Rendering of a key as the string the program sends. -/
def ObjectKey.render (k : ObjectKey) : String := "Object-" ++ toString k.objnum

/-- Error value returned by the store client; `isAwsErr` is the result of the type
assertion `err.(awserr.Error)`. -/
structure StoreError where
  code : Nat
  isAwsErr : Bool
deriving DecidableEq, Repr

/-- Outcome of one request to the store: success (with the `ETag` of the response,
read by `uploadPart` only) or an error. -/
inductive Outcome where
  | ok (etag : Nat)
  | err (e : StoreError)
deriving DecidableEq, Repr

/-- An `s3.CompletedPart`: integrity tag and part number. -/
structure CompletedPart where
  ETag : Nat
  PartNumber : Int
deriving DecidableEq, Repr

/-- The byte range `object_data[lo:hi]`. -/
structure ByteSlice where
  lo : Nat
  hi : Nat
deriving DecidableEq, Repr

/-- Length `len(fileBytes)` of a byte range. -/
def ByteSlice.len (b : ByteSlice) : Nat := b.hi - b.lo

/-- The slice expression `object_data[lo:hi]` on a buffer of `dataLen` bytes
(`make([]byte, n)` has capacity `n`): Go panics unless `lo <= hi <= cap`. -/
def sliceBytes (dataLen lo hi : Nat) : Option ByteSlice :=
  if lo ≤ hi ∧ hi ≤ dataLen then some ⟨lo, hi⟩ else none

/-- A request sent to the object store. -/
inductive StoreCall where
  | PutObject (key : ObjectKey)
  | CreateMultipartUpload (key : ObjectKey)
  | UploadPart (key : ObjectKey) (partNumber : Int) (body : ByteSlice)
  | AbortMultipartUpload (key : ObjectKey)
  | CompleteMultipartUpload (key : ObjectKey) (parts : List (Option CompletedPart))
  | GetObject (key : ObjectKey)
  | DeleteObject (key : ObjectKey)
deriving DecidableEq, Repr

/-- The request is a single-part `PUT`. -/
def StoreCall.isPut : StoreCall → Bool
  | .PutObject _ => true
  | _ => false

/-- The request belongs to the multipart protocol. -/
def StoreCall.isMultipart : StoreCall → Bool
  | .CreateMultipartUpload _ => true
  | .UploadPart _ _ _ => true
  | .AbortMultipartUpload _ => true
  | .CompleteMultipartUpload _ _ => true
  | _ => false

/-- The request is an `UploadPart`. -/
def StoreCall.isUploadPart : StoreCall → Bool
  | .UploadPart _ _ _ => true
  | _ => false

/-- One call of `uploadPart` made by `runUploadMultiPart`: the part number, the byte
range passed and whether the call returned a nil error. -/
structure PartUpload where
  partNumber : Int
  body : ByteSlice
  ok : Bool
deriving DecidableEq, Repr

/-- The environment of a worker: outcomes of the store requests in the order they are
sent, and the readings of the clock in the order they are taken. -/
structure World where
  store : Nat → Outcome
  clock : Nat → Int

/-- The configuration fixed before the workers start: the globals `object_size`,
`multipart_threshold`, `use_multipart_upload` and the length of `object_data`. -/
structure Config where
  object_size : Nat
  multipart_threshold : Nat
  use_multipart_upload : Bool
  object_data_len : Nat
deriving DecidableEq, Repr

/-- The shared mutable state: the counters, the phase deadline, the finish times, the
key registry, and the two observation logs. -/
structure State where
  upload_count : Int
  download_count : Int
  delete_count : Int
  upload_slowdown_count : Int
  download_slowdown_count : Int
  delete_slowdown_count : Int
  running_threads : Int
  endtime : Int
  upload_finish : Int
  download_finish : Int
  delete_finish : Int
  keys : List ObjectKey
  trace : List StoreCall
  uploads : List PartUpload
  ticks : Nat
deriving DecidableEq, Repr

/-- Why a run stopped without returning. -/
inductive Fault where
  | outOfFuel
  | sliceOutOfRange
deriving DecidableEq, Repr

/-- Result of running a piece of the program: it returned `a` in state `s`, or it
stopped in state `s` because of `f`. -/
inductive Run (α : Type) where
  | ret (a : α) (s : State)
  | fault (f : Fault) (s : State)
deriving DecidableEq, Repr

/-- The state in which a run ended. -/
def Run.state {α : Type} : Run α → State
  | .ret _ s => s
  | .fault _ s => s

/-- Which exit of a download or delete worker was taken. -/
inductive Stop where
  | deadline
  | errorLimit
  | exhausted
deriving DecidableEq, Repr

/-! ## Primitive steps -/

/-- Send one request: its outcome is the next one of the store, and the request is
appended to the trace. -/
def State.send (s : State) (w : World) (c : StoreCall) : Outcome × State :=
  (w.store s.trace.length, { s with trace := s.trace ++ [c] })

/-- One `time.Now()`. -/
def State.now (s : State) (w : World) : Int × State :=
  (w.clock s.ticks, { s with ticks := s.ticks + 1 })

/-- The call `keys.Store(key, nil)` on the registry. -/
def State.storeKey (s : State) (k : ObjectKey) : State :=
  if k ∈ s.keys then s else { s with keys := s.keys ++ [k] }

/-- The call `atomic.AddInt32(&upload_count, d)`. -/
def State.addUploadCount (s : State) (d : Int) : State :=
  { s with upload_count := wrapInt32 (s.upload_count + d) }

/-- The call `atomic.AddInt32(&upload_slowdown_count, d)`. -/
def State.addUploadSlowdown (s : State) (d : Int) : State :=
  { s with upload_slowdown_count := wrapInt32 (s.upload_slowdown_count + d) }

/-- The call `atomic.AddInt32(&download_count, d)`. -/
def State.addDownloadCount (s : State) (d : Int) : State :=
  { s with download_count := wrapInt32 (s.download_count + d) }

/-- The call `atomic.AddInt32(&download_slowdown_count, d)`. -/
def State.addDownloadSlowdown (s : State) (d : Int) : State :=
  { s with download_slowdown_count := wrapInt32 (s.download_slowdown_count + d) }

/-- The call `atomic.AddInt32(&delete_count, d)`. -/
def State.addDeleteCount (s : State) (d : Int) : State :=
  { s with delete_count := wrapInt32 (s.delete_count + d) }

/-- The call `atomic.AddInt32(&delete_slowdown_count, d)`. -/
def State.addDeleteSlowdown (s : State) (d : Int) : State :=
  { s with delete_slowdown_count := wrapInt32 (s.delete_slowdown_count + d) }

/-- The call `atomic.AddInt32(&running_threads, d)`. -/
def State.addRunningThreads (s : State) (d : Int) : State :=
  { s with running_threads := wrapInt32 (s.running_threads + d) }

/-! ## Upload workers -/

/-- The function `runUploadSinglePart`: allocate the next object number, `PUT` the
payload, undo the allocation on failure, register the key on success. -/
def runUploadSinglePart (w : World) (s : State) : State :=
  let s1 := s.addUploadCount 1
  let objnum := s1.upload_count
  let key : ObjectKey := ⟨objnum⟩
  match s1.send w (.PutObject key) with
  | (.err _, s2) => (s2.addUploadSlowdown 1).addUploadCount (-1)
  | (.ok _, s2) => s2.storeKey key

/-- The loop `for tryNum <= maxRetries` of `uploadPart`, returning the pair
`(*s3.CompletedPart, error)`. -/
def uploadPartLoop (w : World) (key : ObjectKey) (fileBytes : ByteSlice) (partNumber : Int) :
    Nat → Int → State → Run (Option CompletedPart × Option StoreError)
  | 0, _, s => .fault .outOfFuel s
  | fuel + 1, tryNum, s =>
    if tryNum ≤ maxRetries then
      match s.send w (.UploadPart key partNumber fileBytes) with
      | (.err e, s1) =>
        if tryNum = maxRetries then
          if e.isAwsErr then .ret (none, some e) s1 else .ret (none, some e) s1
        else uploadPartLoop w key fileBytes partNumber fuel (tryNum + 1) s1
      | (.ok etag, s1) => .ret (some ⟨etag, partNumber⟩, none) s1
    else .ret (none, none) s

/-- The function `uploadPart`: the retry loop started with `tryNum := 1`. -/
def uploadPart (fuel : Nat) (w : World) (key : ObjectKey) (fileBytes : ByteSlice)
    (partNumber : Int) (s : State) : Run (Option CompletedPart × Option StoreError) :=
  uploadPartLoop w key fileBytes partNumber fuel 1 s

/-- The function `abortMultipartUpload`: one request, whose error is returned. -/
def abortMultipartUpload (w : World) (key : ObjectKey) (s : State) :
    Option StoreError × State :=
  match s.send w (.AbortMultipartUpload key) with
  | (.err e, s1) => (some e, s1)
  | (.ok _, s1) => (none, s1)

/-- The function `completeMultipartUpload`: one request carrying the completed parts,
whose error is returned. -/
def completeMultipartUpload (w : World) (key : ObjectKey)
    (completedParts : List (Option CompletedPart)) (s : State) : Option StoreError × State :=
  match s.send w (.CompleteMultipartUpload key completedParts) with
  | (.err e, s1) => (some e, s1)
  | (.ok _, s1) => (none, s1)

/-- The split loop `for curr = 0; remaining != 0; curr += partLength` of
`runUploadMultiPart`.  It returns `some completedParts` when the loop ends normally
and `none` when a part failed and the function returned from inside the loop. -/
def splitLoop (w : World) (cfg : Config) (key : ObjectKey) :
    Nat → Nat → Nat → Int → List (Option CompletedPart) → State →
      Run (Option (List (Option CompletedPart)))
  | 0, _, _, _, _, s => .fault .outOfFuel s
  | fuel + 1, curr, remaining, partNumber, completedParts, s =>
    if remaining ≠ 0 then
      let partLength :=
        if remaining < cfg.multipart_threshold then remaining else cfg.multipart_threshold
      match sliceBytes cfg.object_data_len curr (addUint64 curr partLength) with
      | none => .fault .sliceOutOfRange s
      | some fileBytes =>
        match uploadPart fuel w key fileBytes partNumber s with
        | .fault f s1 => .fault f s1
        | .ret (_, some _) s1 =>
          let s2 := { s1 with uploads := s1.uploads ++ [PartUpload.mk partNumber fileBytes false] }
          let s3 := (s2.addUploadSlowdown 1).addUploadCount (-1)
          .ret none (abortMultipartUpload w key s3).2
        | .ret (completedPart, none) s1 =>
          let s2 := { s1 with uploads := s1.uploads ++ [PartUpload.mk partNumber fileBytes true] }
          splitLoop w cfg key fuel (addUint64 curr partLength) (subUint64 remaining partLength)
            (wrapInt64 (partNumber + 1)) (completedParts ++ [completedPart]) s2
    else .ret (some completedParts) s

/-- The function `runUploadMultiPart`. -/
def runUploadMultiPart (fuel : Nat) (w : World) (cfg : Config) (s : State) : Run Unit :=
  let s1 := s.addUploadCount 1
  let objnum := s1.upload_count
  let key : ObjectKey := ⟨objnum⟩
  match s1.send w (.CreateMultipartUpload key) with
  | (.err _, s2) => .ret () ((s2.addUploadSlowdown 1).addUploadCount (-1))
  | (.ok _, s2) =>
    match splitLoop w cfg key fuel 0 cfg.object_size 1 [] s2 with
    | .fault f s3 => .fault f s3
    | .ret none s3 => .ret () s3
    | .ret (some completedParts) s3 =>
      match completeMultipartUpload w key completedParts s3 with
      | (some _, s4) => .ret () s4
      | (none, s4) => .ret () (s4.storeKey key)

/-- The function `runUpload`: upload objects until the clock is no longer before
`endtime`, then record the finish time and leave the pool. -/
def runUpload (w : World) (cfg : Config) : Nat → State → Run Unit
  | 0, s => .fault .outOfFuel s
  | fuel + 1, s =>
    match s.now w with
    | (now, s1) =>
      if now < s1.endtime then
        if cfg.use_multipart_upload then
          match runUploadMultiPart fuel w cfg s1 with
          | .fault f s2 => .fault f s2
          | .ret _ s2 => runUpload w cfg fuel s2
        else runUpload w cfg fuel (runUploadSinglePart w s1)
      else
        match s1.now w with
        | (t, s2) => .ret () ({ s2 with upload_finish := t }.addRunningThreads (-1))

/-! ## Download worker -/

/-- The callback passed to `keys.Range` by `runDownload`, with the captured variable
`errcnt` threaded through.  `none` stands for `return true`; `some r` for `return
false`, `r` naming the `return` statement taken.  Every key of the registry is a
string, so the `log.Fatal` branch of the type assertion is not reachable; draining
the response body with `io.Copy` sends no request and its error is not read. -/
def downloadCallback (w : World) (key : ObjectKey) (errcnt : Nat) (s : State) :
    Option Stop × Nat × State :=
  match s.now w with
  | (now, s1) =>
    if now > s1.endtime then (some .deadline, errcnt, s1)
    else
      match s1.send w (.GetObject key) with
      | (.err _, s2) =>
        let errcnt1 := errcnt + 1
        let s3 := (s2.addDownloadSlowdown 1).addDownloadCount (-1)
        if errcnt1 > 2 then (some .errorLimit, errcnt1, s3)
        else (none, errcnt1, s3.addDownloadCount 1)
      | (.ok _, s2) =>
        if errcnt > 2 then (some .errorLimit, errcnt, s2)
        else (none, errcnt, s2.addDownloadCount 1)

/-- The traversal `keys.Range(f)`: the callback is called on each key in turn until
it returns false. -/
def keysRange (w : World) : List ObjectKey → Nat → State → Stop × Nat × State
  | [], errcnt, s => (.exhausted, errcnt, s)
  | key :: rest, errcnt, s =>
    match downloadCallback w key errcnt s with
    | (some r, errcnt1, s1) => (r, errcnt1, s1)
    | (none, errcnt1, s1) => keysRange w rest errcnt1 s1

/-- The function `runDownload`; it also reports the exit of the traversal and the
final value of `errcnt`. -/
def runDownload (w : World) (s : State) : Stop × Nat × State :=
  match keysRange w s.keys 0 s with
  | (r, errcnt, s1) =>
    match s1.now w with
    | (t, s2) => (r, errcnt, { s2 with download_finish := t }.addRunningThreads (-1))

/-! ## Delete worker -/

/-- The loop `for { ... }` of `runDelete`, with the local `errcnt`; it reports which
`break` was taken and the final `errcnt`. -/
def deleteLoop (w : World) : Nat → Nat → State → Run (Stop × Nat)
  | 0, _, s => .fault .outOfFuel s
  | fuel + 1, errcnt, s =>
    let s1 := s.addDeleteCount 1
    let objnum := s1.delete_count
    if objnum > s1.upload_count then .ret (.exhausted, errcnt) s1
    else
      let key : ObjectKey := ⟨objnum⟩
      match s1.send w (.DeleteObject key) with
      | (.err _, s2) =>
        let errcnt1 := errcnt + 1
        let s3 := (s2.addDeleteSlowdown 1).addDeleteCount (-1)
        if errcnt1 > 2 then .ret (.errorLimit, errcnt1) s3
        else deleteLoop w fuel errcnt1 s3
      | (.ok _, s2) =>
        if errcnt > 2 then .ret (.errorLimit, errcnt) s2
        else deleteLoop w fuel errcnt s2

/-- The function `runDelete`. -/
def runDelete (fuel : Nat) (w : World) (s : State) : Run (Stop × Nat) :=
  match deleteLoop w fuel 0 s with
  | .fault f s1 => .fault f s1
  | .ret r s1 =>
    match s1.now w with
    | (t, s2) => .ret r ({ s2 with delete_finish := t }.addRunningThreads (-1))

/-! ## Start-up -/

/-- The part of `init` that fixes the sizes and the upload path.  `ToBytes` is
`bytefmt.ToBytes`; an `Except.error` is a `log.Fatal` exit. -/
def init (ToBytes : String → Except String Nat) (sizeArg multipartThresholdArg : String) :
    Except String Config :=
  match ToBytes sizeArg with
  | .error e => .error ("Invalid -z argument for object size: " ++ e)
  | .ok object_size =>
    match ToBytes multipartThresholdArg with
    | .error e => .error ("Invalid -m argument for multipart threshold: " ++ e)
    | .ok multipart_threshold =>
      if multipart_threshold > 5 * GIGABYTE then
        .error "The multipart threshold cannot be greater than 5GB"
      else
        .ok { object_size := object_size, multipart_threshold := multipart_threshold,
              use_multipart_upload := decide (object_size > multipart_threshold),
              object_data_len := 0 }

/-- The statement `object_data = make([]byte, object_size)` of `main`. -/
def allocPayload (cfg : Config) : Config := { cfg with object_data_len := cfg.object_size }

/-- The counter reset at the top of each loop of `main`, with a fresh registry and the
deadline of the phase. -/
def resetState (endtime : Int) : State :=
  { upload_count := 0, download_count := 0, delete_count := 0, upload_slowdown_count := 0,
    download_slowdown_count := 0, delete_slowdown_count := 0, running_threads := 1,
    endtime := endtime, upload_finish := 0, download_finish := 0, delete_finish := 0,
    keys := [], trace := [], uploads := [], ticks := 0 }

/-- Rounded-up quotient `ceil(a / b)`, the number of parts of a split of `a` bytes into
parts of `b` bytes. -/
def ceilDiv (a b : Nat) : Nat := (a + b - 1) / b

/-- The state `s'` has the trace of `s` followed by requests that all satisfy `p`. -/
def TraceExt (p : StoreCall → Bool) (s s' : State) : Prop :=
  ∃ calls, s'.trace = s.trace ++ calls ∧ ∀ c ∈ calls, p c = true

/-- The outcome is an error. -/
def Outcome.isErr : Outcome → Bool
  | .err _ => true
  | .ok _ => false

/-- Number of errors among the `n` outcomes of the store that start with the `a`-th. -/
def failures (w : World) (a : Nat) : Nat → Nat
  | 0 => 0
  | n + 1 => failures w a n + (if (w.store (a + n)).isErr then 1 else 0)

/-- A worker that entered its loop in state `s` with `errcnt = e` left it in state
`s'` through exit `r` with `errcnt = e'`: it sent `n` requests, `e'` is `e` plus the
number of failures among them, `e'` is at most 3, the exit is the error limit exactly
when `e'` is 3, and then the last request sent is one that failed. -/
def FailFastFrom (w : World) (s : State) (e : Nat) (r : Stop) (e' : Nat) (s' : State)
    (n : Nat) : Prop :=
  s'.trace.length = s.trace.length + n ∧
  e' = e + failures w s.trace.length n ∧
  e' ≤ 3 ∧
  (r = .errorLimit ↔ e' = 3) ∧
  (e' = 3 → 1 ≤ n ∧ (w.store (s.trace.length + n - 1)).isErr = true)

/-- The registry holds exactly the keys `Object-1`, ..., `Object-n` and `upload_count`
is `n`. -/
def RegistryMatches (n : Nat) (s : State) : Prop :=
  s.upload_count = (n : Int) ∧
  s.keys = (List.range n).map (fun (i : Nat) => (⟨(i : Int) + 1⟩ : ObjectKey))

/-- The byte ranges `xs` are non-empty and consecutive: the first starts at `a`, each
next one starts where the one before ends, and the last ends at `b`. -/
def Tiles : Nat → List ByteSlice → Nat → Prop
  | a, [], b => a = b
  | a, x :: xs, b => x.lo = a ∧ a < x.hi ∧ Tiles x.hi xs b

/-! ## Example environments -/

/-- A store in which every request succeeds (tag 7) and a clock that stays at 0. -/
def worldAllOk : World := ⟨fun _ => .ok 7, fun _ => 0⟩

/-- A store whose first two responses are errors and whose later ones succeed. -/
def worldRetry : World :=
  ⟨fun k => if k < 2 then .err ⟨503, true⟩ else .ok 7, fun _ => 0⟩

/-- A store whose second response (the first try of the first part of the first
multipart upload) is an error and whose other responses succeed. -/
def worldFlaky : World :=
  ⟨fun k => if k = 1 then .err ⟨503, true⟩ else .ok 7, fun _ => 0⟩

/-- The second end-to-end scenario: 12 000 000 bytes, threshold 5 000 000 bytes. -/
def cfgScenario2 : Config :=
  { object_size := 12000000, multipart_threshold := 5000000, use_multipart_upload := true,
    object_data_len := 12000000 }

/-- The configuration after `-z 12M -m 5M`: 12 582 912 bytes, threshold 5 242 880. -/
def cfgMultipart : Config :=
  { object_size := 12582912, multipart_threshold := 5242880, use_multipart_upload := true,
    object_data_len := 12582912 }

/-- A store that accepts `CreateMultipartUpload` and the three `UploadPart` requests
of one upload and rejects the fifth request, the `CompleteMultipartUpload`; the clock
reads 0, then 20, 40, ... -/
def worldCompleteFails : World :=
  ⟨fun k => if k = 4 then .err ⟨500, true⟩ else .ok 7, fun k => 20 * (k : Int)⟩

/-- A store that accepts `CreateMultipartUpload` and rejects the next three requests,
the three tries of the first part. -/
def worldPartFails : World :=
  ⟨fun k => if 1 ≤ k ∧ k ≤ 3 then .err ⟨503, true⟩ else .ok 7, fun _ => 0⟩

/-- A store that rejects every request; the clock stays at 0. -/
def worldAllFail : World := ⟨fun _ => .err ⟨503, true⟩, fun _ => 0⟩

/-- The state at the start of a download phase with deadline 10 after three objects
were uploaded. -/
def stateThreeUploaded : State :=
  { resetState 10 with upload_count := 3, keys := [⟨1⟩, ⟨2⟩, ⟨3⟩] }

/-- The state at the start of a delete phase with deadline 10 after one hundred
objects were uploaded. -/
def stateHundredUploaded : State := { resetState 10 with upload_count := 100 }

/-- A store that accepts everything and a clock that reads 100, after the deadline 10
of `resetState 10`. -/
def worldLate : World := ⟨fun _ => .ok 7, fun _ => 100⟩

/-- The state at the start of a delete phase with deadline 10 after one object was
uploaded. -/
def stateOneUploaded : State := { resetState 10 with upload_count := 1, keys := [⟨1⟩] }

/-- A store that accepts everything and a clock that reads 0, then 20, 40, ...: with
deadline 10 an upload worker makes exactly one upload. -/
def worldOneRound : World := ⟨fun _ => .ok 7, fun k => 20 * (k : Int)⟩

/-- A stand-in for `bytefmt.ToBytes` on the two arguments of the first end-to-end
scenario. -/
def demoToBytes : String → Except String Nat
  | "1000000B" => .ok 1000000
  | "5000000000B" => .ok 5000000000
  | _ => .error "byte quantity must be a positive integer with a unit of measurement"

/-- The configuration of the first end-to-end scenario: 1 000 000 bytes, threshold
5 000 000 000 bytes, as `init` leaves it. -/
def cfgScenario1 : Config :=
  { object_size := 1000000, multipart_threshold := 5000000000, use_multipart_upload := false,
    object_data_len := 0 }

/-- A store whose first, third and fifth responses are errors and whose other
responses succeed; the clock stays at 0. -/
def worldAlternating : World :=
  ⟨fun k => if k = 0 ∨ k = 2 ∨ k = 4 then .err ⟨503, true⟩ else .ok 7, fun _ => 0⟩

/-- The state at the start of a download or delete phase with deadline 10 after eight
objects were uploaded. -/
def stateEightUploaded : State :=
  { resetState 10 with
    upload_count := 8, keys := [⟨1⟩, ⟨2⟩, ⟨3⟩, ⟨4⟩, ⟨5⟩, ⟨6⟩, ⟨7⟩, ⟨8⟩] }

/-- A store whose first response is an error and whose later responses succeed, with
a clock that reads 0, then 20, 40, ...: with deadline 30 an upload worker makes two
uploads. -/
def worldTwoRounds : World :=
  ⟨fun k => if k = 0 then .err ⟨503, true⟩ else .ok 7, fun k => 20 * (k : Int)⟩

/-- A payload that is an exact multiple of the threshold: 10 000 000 bytes, threshold
5 000 000 bytes. -/
def cfgExactMultiple : Config :=
  { object_size := 10000000, multipart_threshold := 5000000, use_multipart_upload := true,
    object_data_len := 10000000 }

/-- A threshold of zero with a payload of 12 bytes. -/
def cfgZeroThreshold : Config :=
  { object_size := 12, multipart_threshold := 0, use_multipart_upload := true,
    object_data_len := 12 }

/-- A store that rejects every request with an even position and accepts every
request with an odd one: in a split loop entered with an empty trace every first try
of a part fails and every second try succeeds.  The clock stays at 0. -/
def worldRetryEach : World :=
  ⟨fun k => if k % 2 = 0 then .err ⟨503, true⟩ else .ok 7, fun _ => 0⟩

/-! ## Theorems -/

/-- C6: for every sequence of store outcomes, `uploadPart` (with fuel for three rounds)
returns after `n` requests, `1 ≤ n ≤ 3`, all for the requested part; every request
before the last one failed; either the last one succeeded and the result is the
completed part with the requested part number and the tag of that response and a nil
error, or all three failed and the result is a nil part with the error of the third.
A part is returned exactly when one of the first three outcomes is a success, the
third error exactly when the first three outcomes are failures, and the result is
never a nil part with a nil error. -/
theorem uploadPart_retry_contract (w : World) (key : ObjectKey) (b : ByteSlice) (pn : Int)
    (s : State) (fuel : Nat) (hfuel : 3 ≤ fuel) :
    ∃ n part err,
      uploadPart fuel w key b pn s
        = .ret (part, err) { s with trace := s.trace ++ List.replicate n (.UploadPart key pn b) } ∧
      1 ≤ n ∧ n ≤ 3 ∧
      (∀ k, k + 1 < n → ∃ e, w.store (s.trace.length + k) = .err e) ∧
      ((∃ tag, w.store (s.trace.length + (n - 1)) = .ok tag ∧
          part = some ⟨tag, pn⟩ ∧ err = none) ∨
        (n = 3 ∧ ∃ e, w.store (s.trace.length + 2) = .err e ∧ part = none ∧ err = some e)) ∧
      ((∃ tag, part = some ⟨tag, pn⟩ ∧ err = none) ↔
        ∃ k, k < 3 ∧ ∃ tag, w.store (s.trace.length + k) = .ok tag) ∧
      ((part = none ∧ ∃ e, w.store (s.trace.length + 2) = .err e ∧ err = some e) ↔
        ∀ k, k < 3 → ∃ e, w.store (s.trace.length + k) = .err e) ∧
      ¬ (part = none ∧ err = none) := by
  obtain ⟨f, rfl⟩ : ∃ f, fuel = f + 3 := ⟨fuel - 3, by omega⟩
  rcases h0 : w.store s.trace.length with tag0 | e0
  · refine ⟨1, some ⟨tag0, pn⟩, none, ?_, le_refl _, by omega, ?_, ?_, ?_, ?_, ?_⟩
    · simp [uploadPart, uploadPartLoop, State.send, h0, maxRetries]
    · intro k hk; omega
    · exact Or.inl ⟨tag0, by simpa using h0, rfl, rfl⟩
    · exact ⟨fun _ => ⟨0, by omega, tag0, by simpa using h0⟩, fun _ => ⟨tag0, rfl, rfl⟩⟩
    · constructor
      · rintro ⟨h, _⟩; cases h
      · intro h
        obtain ⟨e, he⟩ := h 0 (by omega)
        simp [h0] at he
    · simp
  · rcases h1 : w.store (s.trace.length + 1) with tag1 | e1
    · refine ⟨2, some ⟨tag1, pn⟩, none, ?_, by omega, by omega, ?_, ?_, ?_, ?_, ?_⟩
      · simp [uploadPart, uploadPartLoop, State.send, h0, h1, maxRetries]
      · intro k hk
        have : k = 0 := by omega
        subst this
        exact ⟨e0, by simpa using h0⟩
      · exact Or.inl ⟨tag1, by simpa using h1, rfl, rfl⟩
      · exact ⟨fun _ => ⟨1, by omega, tag1, h1⟩, fun _ => ⟨tag1, rfl, rfl⟩⟩
      · constructor
        · rintro ⟨h, _⟩; cases h
        · intro h
          obtain ⟨e, he⟩ := h 1 (by omega)
          simp [h1] at he
      · simp
    · rcases h2 : w.store (s.trace.length + 2) with tag2 | e2
      · refine ⟨3, some ⟨tag2, pn⟩, none, ?_, by omega, by omega, ?_, ?_, ?_, ?_, ?_⟩
        · simp [uploadPart, uploadPartLoop, State.send, h0, h1, h2, maxRetries]
        · intro k hk
          have : k = 0 ∨ k = 1 := by omega
          rcases this with rfl | rfl
          · exact ⟨e0, by simpa using h0⟩
          · exact ⟨e1, h1⟩
        · exact Or.inl ⟨tag2, by simpa using h2, rfl, rfl⟩
        · exact ⟨fun _ => ⟨2, by omega, tag2, h2⟩, fun _ => ⟨tag2, rfl, rfl⟩⟩
        · constructor
          · rintro ⟨h, _⟩; cases h
          · intro h
            obtain ⟨e, he⟩ := h 2 (by omega)
            simp [h2] at he
        · simp
      · refine ⟨3, none, some e2, ?_, by omega, by omega, ?_, ?_, ?_, ?_, ?_⟩
        · simp [uploadPart, uploadPartLoop, State.send, h0, h1, h2, maxRetries]
        · intro k hk
          have : k = 0 ∨ k = 1 := by omega
          rcases this with rfl | rfl
          · exact ⟨e0, by simpa using h0⟩
          · exact ⟨e1, h1⟩
        · exact Or.inr ⟨rfl, e2, rfl, rfl, rfl⟩
        · constructor
          · rintro ⟨tag, h, _⟩; cases h
          · rintro ⟨k, hk, tag, hs⟩
            have : k = 0 ∨ k = 1 ∨ k = 2 := by omega
            rcases this with rfl | rfl | rfl
            · simp [h0] at hs
            · simp [h1] at hs
            · simp [h2] at hs
        · constructor
          · intro _ k hk
            have : k = 0 ∨ k = 1 ∨ k = 2 := by omega
            rcases this with rfl | rfl | rfl
            · exact ⟨e0, by simpa using h0⟩
            · exact ⟨e1, h1⟩
            · exact ⟨e2, h2⟩
          · intro _
            exact ⟨rfl, e2, rfl, rfl⟩
        · simp

/-- Witness of C6 at a store whose first two responses are errors: the third request
succeeds and the completed part carries part number 4 and tag 7. -/
theorem uploadPart_retry_contract_witness :
    3 ≤ 3 ∧
    (∃ n part err,
      uploadPart 3 worldRetry ⟨1⟩ ⟨0, 5⟩ 4 (resetState 10)
        = .ret (part, err) { resetState 10 with
            trace := (resetState 10).trace ++ List.replicate n (.UploadPart ⟨1⟩ 4 ⟨0, 5⟩) } ∧
      1 ≤ n ∧ n ≤ 3) ∧
    uploadPart 3 worldRetry ⟨1⟩ ⟨0, 5⟩ 4 (resetState 10)
      = .ret (some ⟨7, 4⟩, none) { resetState 10 with
          trace := List.replicate 3 (.UploadPart ⟨1⟩ 4 ⟨0, 5⟩) } :=
  ⟨by decide,
   (let ⟨n, part, err, h, h1, h2, _⟩ :=
      uploadPart_retry_contract worldRetry ⟨1⟩ ⟨0, 5⟩ 4 (resetState 10) 3 (by decide)
    ⟨n, part, err, h, h1, h2⟩),
   by decide⟩

/-! ### The split loop -/

theorem ceilDiv_zero (t : Nat) (ht : 0 < t) : ceilDiv 0 t = 0 := by
  unfold ceilDiv
  exact Nat.div_eq_of_lt (by omega)

theorem ceilDiv_step (r t : Nat) (ht : 0 < t) (hr : r ≠ 0) :
    ceilDiv r t = ceilDiv (r - (if r < t then r else t)) t + 1 := by
  unfold ceilDiv
  by_cases h : r < t
  · simp only [h, if_true, Nat.sub_self, Nat.zero_add]
    have h1 : r + t - 1 = (r - 1) + t := by omega
    rw [h1, Nat.add_div_right _ ht, Nat.div_eq_of_lt (by omega : r - 1 < t),
      Nat.div_eq_of_lt (by omega : t - 1 < t)]
  · simp only [h, if_false]
    have h1 : r + t - 1 = (r - t + t - 1) + t := by omega
    rw [h1, Nat.add_div_right _ ht]

theorem ceilDiv_pos (r t : Nat) (ht : 0 < t) (hr : r ≠ 0) : 1 ≤ ceilDiv r t := by
  rw [ceilDiv_step r t ht hr]; omega

theorem wrapInt64_id (x : Int) (h0 : -9223372036854775808 ≤ x) (h1 : x < 9223372036854775808) :
    wrapInt64 x = x := by
  unfold wrapInt64; omega

/-- With fuel for three rounds `uploadPart` returns after one to three requests, and
a nil error comes with a completed part carrying the requested part number. -/
theorem uploadPart_returns (w : World) (key : ObjectKey) (b : ByteSlice) (pn : Int)
    (s : State) (fuel : Nat) (hfuel : 3 ≤ fuel) :
    ∃ n part err,
      uploadPart fuel w key b pn s
        = .ret (part, err) { s with trace := s.trace ++ List.replicate n (.UploadPart key pn b) } ∧
      1 ≤ n ∧ n ≤ 3 ∧ (err = none → ∃ tag, part = some ⟨tag, pn⟩) := by
  obtain ⟨f, rfl⟩ : ∃ f, fuel = f + 3 := ⟨fuel - 3, by omega⟩
  rcases h0 : w.store s.trace.length with tag0 | e0
  · exact ⟨1, some ⟨tag0, pn⟩, none,
      by simp [uploadPart, uploadPartLoop, State.send, h0, maxRetries],
      by omega, by omega, fun _ => ⟨tag0, rfl⟩⟩
  · rcases h1 : w.store (s.trace.length + 1) with tag1 | e1
    · exact ⟨2, some ⟨tag1, pn⟩, none,
        by simp [uploadPart, uploadPartLoop, State.send, h0, h1, maxRetries],
        by omega, by omega, fun _ => ⟨tag1, rfl⟩⟩
    · rcases h2 : w.store (s.trace.length + 2) with tag2 | e2
      · exact ⟨3, some ⟨tag2, pn⟩, none,
          by simp [uploadPart, uploadPartLoop, State.send, h0, h1, h2, maxRetries],
          by omega, by omega, fun _ => ⟨tag2, rfl⟩⟩
      · exact ⟨3, none, some e2,
          by simp [uploadPart, uploadPartLoop, State.send, h0, h1, h2, maxRetries],
          by omega, by omega, fun h => by cases h⟩

theorem abortMultipartUpload_state (w : World) (key : ObjectKey) (s : State) :
    (abortMultipartUpload w key s).2 = { s with trace := s.trace ++ [.AbortMultipartUpload key] } := by
  cases hw : w.store s.trace.length <;> simp [abortMultipartUpload, State.send, hw]

theorem completeMultipartUpload_state (w : World) (key : ObjectKey)
    (parts : List (Option CompletedPart)) (s : State) :
    (completeMultipartUpload w key parts s).2
      = { s with trace := s.trace ++ [.CompleteMultipartUpload key parts] } := by
  cases hw : w.store s.trace.length <;> simp [completeMultipartUpload, State.send, hw]

/-- The split loop, run from any loop head at which the cursor and the remaining
count add up to the payload length: it returns, and the calls of `uploadPart` it
made, the requests it sent and the counters are as described, both when it ends
normally (`some parts`) and when a part failed (`none`). -/
theorem splitLoop_run (w : World) (cfg : Config) (key : ObjectKey)
    (ht : 0 < cfg.multipart_threshold) (hL : cfg.object_data_len < 18446744073709551616) :
    ∀ (fuel curr remaining : Nat) (pn : Int) (cps : List (Option CompletedPart)) (s : State),
      curr + remaining = cfg.object_data_len →
      (remaining ≠ 0 → 1 ≤ pn ∧ pn + (remaining : Int) ≤ 9223372036854775808) →
      ceilDiv remaining cfg.multipart_threshold + 3 ≤ fuel →
      ∃ res s' ups calls,
        splitLoop w cfg key fuel curr remaining pn cps s = .ret res s' ∧
        s'.uploads = s.uploads ++ ups ∧ s'.trace = s.trace ++ calls ∧ s'.keys = s.keys ∧
        (∀ u ∈ ups, u.body.lo ≤ u.body.hi ∧ u.body.hi ≤ cfg.object_data_len ∧ 1 ≤ u.body.len) ∧
        (∀ u ∈ ups.dropLast, u.ok = true ∧ u.body.len = cfg.multipart_threshold) ∧
        ups.map PartUpload.partNumber = (List.range ups.length).map (fun (i : Nat) => pn + (i : Int)) ∧
        ups.length ≤ ceilDiv remaining cfg.multipart_threshold ∧
        (match res with
          | some parts =>
            (∀ u ∈ ups, u.ok = true) ∧
            ups.length = ceilDiv remaining cfg.multipart_threshold ∧
            (ups.map (fun u => u.body.len)).sum = remaining ∧
            (∃ nps, parts = cps ++ nps ∧
              nps.map (Option.map CompletedPart.PartNumber)
                = ups.map (fun u => some u.partNumber)) ∧
            (∀ c ∈ calls, c.isUploadPart = true) ∧
            s'.upload_count = s.upload_count ∧
            s'.upload_slowdown_count = s.upload_slowdown_count
          | none =>
            (∃ u, ups.getLast? = some u ∧ u.ok = false) ∧
            (∃ pcs, calls = pcs ++ [.AbortMultipartUpload key] ∧
              ∀ c ∈ pcs, c.isUploadPart = true) ∧
            s'.upload_count = wrapInt32 (s.upload_count + -1) ∧
            s'.upload_slowdown_count = wrapInt32 (s.upload_slowdown_count + 1)) := by
  intro fuel
  induction fuel with
  | zero => intro curr remaining pn cps s _ _ hfuel; omega
  | succ fuel ih =>
    intro curr remaining pn cps s hsum hpn hfuel
    by_cases hr : remaining = 0
    · subst hr
      refine ⟨some cps, s, [], [], ?_⟩
      simp [splitLoop, ceilDiv_zero _ ht]
    · obtain ⟨hpn1, hpn2⟩ := hpn hr
      have hstep := ceilDiv_step remaining cfg.multipart_threshold ht hr
      generalize hpl : (if remaining < cfg.multipart_threshold then remaining
        else cfg.multipart_threshold) = pl at hstep
      have hpl1 : 1 ≤ pl := by rw [← hpl]; split <;> omega
      have hpl2 : pl ≤ remaining := by rw [← hpl]; split <;> omega
      have hadd : addUint64 curr pl = curr + pl := by unfold addUint64; omega
      have hsub : subUint64 remaining pl = remaining - pl := by unfold subUint64; omega
      have hslice : sliceBytes cfg.object_data_len curr (curr + pl) = some ⟨curr, curr + pl⟩ := by
        unfold sliceBytes; rw [if_pos]; omega
      obtain ⟨n, part, err, hup, hn1, hn2, hpart⟩ :=
        uploadPart_returns w key ⟨curr, curr + pl⟩ pn s fuel (by omega)
      rw [splitLoop]
      simp only [hr, ne_eq, not_false_eq_true, if_true, hpl, hadd, hsub, hslice, hup]
      cases err with
      | some e =>
        refine ⟨_, _, [PartUpload.mk pn ⟨curr, curr + pl⟩ false],
          List.replicate n (StoreCall.UploadPart key pn ⟨curr, curr + pl⟩) ++
            [StoreCall.AbortMultipartUpload key], rfl, ?_⟩
        rw [abortMultipartUpload_state]
        refine ⟨rfl, ?_, rfl, ?_, ?_, ?_, ?_, ?_⟩
        · simp [State.addUploadCount, State.addUploadSlowdown]
        · intro u hu
          simp at hu
          subst hu
          simp [ByteSlice.len]
          omega
        · simp
        · simp [List.range_succ]
        · simp; omega
        · refine ⟨⟨_, rfl, rfl⟩, ⟨_, rfl, ?_⟩, rfl, rfl⟩
          intro c hc
          rw [List.eq_of_mem_replicate hc]; rfl
      | none =>
        obtain ⟨tag, rfl⟩ := hpart rfl
        have hzero : remaining - pl = 0 → ∀ l : List PartUpload,
            l.length ≤ ceilDiv (remaining - pl) cfg.multipart_threshold → l = [] := by
          intro h0 l hl
          rw [h0, ceilDiv_zero _ ht] at hl
          exact List.length_eq_zero.mp (by omega)
        have hwrap : remaining - pl ≠ 0 → wrapInt64 (pn + 1) = pn + 1 := by
          intro h0
          exact wrapInt64_id _ (by omega) (by omega)
        have hpn' : remaining - pl ≠ 0 → 1 ≤ wrapInt64 (pn + 1) ∧
            wrapInt64 (pn + 1) + ((remaining - pl : Nat) : Int) ≤ 9223372036854775808 := by
          intro h0
          rw [hwrap h0]
          omega
        obtain ⟨res, s', ups', calls', hrun, hu, htr, hk, hb, hd, hpnm, hlen, hres⟩ :=
          ih (curr + pl) (remaining - pl) (wrapInt64 (pn + 1))
            (cps ++ [some ⟨tag, pn⟩])
            { ({ s with trace := s.trace ++
                  List.replicate n (StoreCall.UploadPart key pn ⟨curr, curr + pl⟩) } : State) with
              uploads := s.uploads ++ [PartUpload.mk pn ⟨curr, curr + pl⟩ true] }
            (by omega) hpn' (by omega)
        have hfirst : ups' ≠ [] → pl = cfg.multipart_threshold := by
          intro hne
          by_contra hc
          have h0 : remaining - pl = 0 := by
            have hpr : pl = remaining := by
              rw [← hpl]; rw [← hpl] at hc
              split_ifs at hc ⊢ with h
              · rfl
              · exact absurd rfl hc
            omega
          exact hne (hzero h0 ups' hlen)
        refine ⟨res, s', PartUpload.mk pn ⟨curr, curr + pl⟩ true :: ups',
          List.replicate n (StoreCall.UploadPart key pn ⟨curr, curr + pl⟩) ++ calls',
          hrun, ?_, ?_, ?_, ?_, ?_, ?_, ?_, ?_⟩
        · rw [hu]; simp
        · rw [htr]; simp
        · rw [hk]
        · intro u hu'
          rcases List.mem_cons.mp hu' with rfl | hu'
          · simp [ByteSlice.len]; omega
          · exact hb u hu'
        · intro u hu'
          cases hups : ups' with
          | nil => rw [hups] at hu'; simp at hu'
          | cons a l =>
            rw [hups, List.dropLast_cons₂] at hu'
            rcases List.mem_cons.mp hu' with rfl | hu'
            · have := hfirst (by rw [hups]; simp)
              simp [ByteSlice.len, this]
            · exact hd u (by rw [hups]; exact hu')
        · by_cases h0 : remaining - pl = 0
          · rw [hzero h0 ups' hlen]; simp [List.range_succ]
          · rw [hwrap h0] at hpnm
            rw [List.map_cons, hpnm, List.length_cons, List.range_succ_eq_map, List.map_cons,
              List.map_map]
            refine congrArg₂ _ (by simp) (List.map_congr_left ?_)
            intro i _
            simp only [Function.comp, Nat.succ_eq_add_one]
            push_cast
            ring
        · rw [List.length_cons, hstep]; omega
        · cases res with
          | some parts =>
            obtain ⟨hok, hlen2, hsumlen, ⟨nps, hparts, hnps⟩, hcalls, hc1, hc2⟩ := hres
            refine ⟨?_, ?_, ?_, ⟨some ⟨tag, pn⟩ :: nps, ?_, ?_⟩, ?_, hc1, hc2⟩
            · intro u hu'
              rcases List.mem_cons.mp hu' with rfl | hu'
              · rfl
              · exact hok u hu'
            · rw [List.length_cons, hlen2, hstep]
            · simp only [List.map_cons, List.sum_cons, hsumlen]
              simp only [ByteSlice.len]
              omega
            · rw [hparts]; simp
            · simp [hnps]
            · intro c hc
              rcases List.mem_append.mp hc with hc | hc
              · rw [List.eq_of_mem_replicate hc]; rfl
              · exact hcalls c hc
          | none =>
            obtain ⟨⟨u, hlast, huok⟩, ⟨pcs, hpcs, hpcs2⟩, hc1, hc2⟩ := hres
            refine ⟨⟨u, ?_, huok⟩, ⟨List.replicate n
              (StoreCall.UploadPart key pn ⟨curr, curr + pl⟩) ++ pcs, ?_, ?_⟩, hc1, hc2⟩
            · rw [List.getLast?_cons, hlast]; rfl
            · rw [hpcs]; simp
            · intro c hc
              rcases List.mem_append.mp hc with hc | hc
              · rw [List.eq_of_mem_replicate hc]; rfl
              · exact hpcs2 c hc

/-- One multipart upload whose session was created: the function returns; the calls
of `uploadPart` and the requests after `CreateMultipartUpload` are those of the split
loop followed by exactly one `CompleteMultipartUpload` (all parts succeeded) or
exactly one `AbortMultipartUpload` (the last part tried failed). -/
theorem runUploadMultiPart_run (w : World) (cfg : Config) (s : State) (fuel : Nat)
    (ht : 0 < cfg.multipart_threshold)
    (hlen : cfg.object_data_len = cfg.object_size)
    (hsize : cfg.object_size < 9223372036854775808)
    (hcreate : ∃ tag, w.store s.trace.length = .ok tag)
    (hfuel : ceilDiv cfg.object_size cfg.multipart_threshold + 3 ≤ fuel) :
    ∃ s' ups calls,
      runUploadMultiPart fuel w cfg s = .ret () s' ∧
      s'.uploads = s.uploads ++ ups ∧
      s'.trace = s.trace ++
        StoreCall.CreateMultipartUpload ⟨wrapInt32 (s.upload_count + 1)⟩ :: calls ∧
      (∀ u ∈ ups, u.body.lo ≤ u.body.hi ∧ u.body.hi ≤ cfg.object_data_len ∧ 1 ≤ u.body.len) ∧
      (∀ u ∈ ups.dropLast, u.ok = true ∧ u.body.len = cfg.multipart_threshold) ∧
      ups.map PartUpload.partNumber = (List.range ups.length).map (fun (i : Nat) => 1 + (i : Int)) ∧
      ups.length ≤ ceilDiv cfg.object_size cfg.multipart_threshold ∧
      (((∀ u ∈ ups, u.ok = true) ∧
          ups.length = ceilDiv cfg.object_size cfg.multipart_threshold ∧
          (ups.map (fun u => u.body.len)).sum = cfg.object_size ∧
          (∃ parts pcs,
            calls = pcs ++
              [StoreCall.CompleteMultipartUpload ⟨wrapInt32 (s.upload_count + 1)⟩ parts] ∧
            (∀ c ∈ pcs, c.isUploadPart = true) ∧
            parts.map (Option.map CompletedPart.PartNumber)
              = ups.map (fun u => some u.partNumber)) ∧
          s'.upload_count = wrapInt32 (s.upload_count + 1) ∧
          s'.upload_slowdown_count = s.upload_slowdown_count) ∨
       ((∃ u, ups.getLast? = some u ∧ u.ok = false) ∧
          (∃ pcs,
            calls = pcs ++ [StoreCall.AbortMultipartUpload ⟨wrapInt32 (s.upload_count + 1)⟩] ∧
            (∀ c ∈ pcs, c.isUploadPart = true)) ∧
          s'.keys = s.keys ∧
          s'.upload_count = wrapInt32 (wrapInt32 (s.upload_count + 1) + -1) ∧
          s'.upload_slowdown_count = wrapInt32 (s.upload_slowdown_count + 1))) := by
  obtain ⟨tag, hcreate⟩ := hcreate
  have hsend : (s.addUploadCount 1).send w
      (StoreCall.CreateMultipartUpload ⟨(s.addUploadCount 1).upload_count⟩)
        = (Outcome.ok tag, ((s.addUploadCount 1).send w
            (StoreCall.CreateMultipartUpload ⟨(s.addUploadCount 1).upload_count⟩)).2) := by
    refine Prod.ext ?_ rfl
    exact hcreate
  obtain ⟨res, s3, ups, calls, hrun, hu, htr, hk, hb, hd, hpn, hle, hres⟩ :=
    splitLoop_run w cfg ⟨(s.addUploadCount 1).upload_count⟩ ht (by omega) fuel 0
      cfg.object_size 1 []
      ((s.addUploadCount 1).send w
        (StoreCall.CreateMultipartUpload ⟨(s.addUploadCount 1).upload_count⟩)).2
      (by omega) (fun _ => ⟨le_refl _, by omega⟩) hfuel
  have hu' : s3.uploads = s.uploads ++ ups := hu
  have htr' : s3.trace = s.trace ++
      StoreCall.CreateMultipartUpload ⟨wrapInt32 (s.upload_count + 1)⟩ :: calls := by
    rw [htr]
    show (s.trace ++ [_]) ++ calls = _
    simp
    rfl
  have hk' : s3.keys = s.keys := hk
  cases res with
  | none =>
    obtain ⟨hlast, hpcs, hc1, hc2⟩ := hres
    refine ⟨s3, ups, calls, ?_, hu', htr', hb, hd, hpn, hle,
      Or.inr ⟨hlast, hpcs, hk', hc1, hc2⟩⟩
    simp only [runUploadMultiPart]
    rw [hsend]
    simp only [hrun]
  | some parts =>
    obtain ⟨hok, hlen2, hsum, ⟨nps, hparts, hnps⟩, hcalls, hc1, hc2⟩ := hres
    have hst := completeMultipartUpload_state w ⟨(s.addUploadCount 1).upload_count⟩ parts s3
    simp only [List.nil_append] at hparts
    subst hparts
    rcases hcm : completeMultipartUpload w ⟨(s.addUploadCount 1).upload_count⟩ parts s3
      with ⟨_ | e, s4⟩
    · rw [hcm] at hst
      simp only at hst
      refine ⟨s4.storeKey ⟨(s.addUploadCount 1).upload_count⟩, ups,
        calls ++ [StoreCall.CompleteMultipartUpload _ parts], ?_, ?_, ?_, hb, hd,
        hpn, hle, Or.inl ⟨hok, hlen2, hsum, ⟨parts, calls, rfl, hcalls, hnps⟩, ?_, ?_⟩⟩
      · simp only [runUploadMultiPart]
        rw [hsend]
        simp only [hrun, hcm]
      · rw [hst]; unfold State.storeKey; split <;> exact hu'
      · rw [hst]; unfold State.storeKey; split <;> simp [htr', State.addUploadCount]
      · rw [hst]; unfold State.storeKey; split <;> exact hc1
      · rw [hst]; unfold State.storeKey; split <;> exact hc2
    · rw [hcm] at hst
      simp only at hst
      refine ⟨s4, ups, calls ++ [StoreCall.CompleteMultipartUpload _ parts], ?_, ?_, ?_, hb, hd,
        hpn, hle, Or.inl ⟨hok, hlen2, hsum, ⟨parts, calls, rfl, hcalls, hnps⟩, ?_, ?_⟩⟩
      · simp only [runUploadMultiPart]
        rw [hsend]
        simp only [hrun, hcm]
      · rw [hst]; exact hu'
      · rw [hst]; simp [htr', State.addUploadCount]
      · rw [hst]; exact hc1
      · rw [hst]; exact hc2

/-! ### C1 and C5: the multipart split -/

/-- C1: in `runUploadMultiPart`, for every `object_size` and every positive
`multipart_threshold` (in particular whenever `0 < multipart_threshold < object_size`),
with the payload `make([]byte, object_size)` and a session that was created, the
function returns, and when every call of `uploadPart` succeeded the lengths of the
parts passed to it, in order, add up to `object_size`, every part but the last has
length `multipart_threshold`, and there are `ceil(object_size / multipart_threshold)`
parts. -/
theorem multipart_split_lengths (w : World) (cfg : Config) (s : State) (fuel : Nat)
    (ht : 0 < cfg.multipart_threshold)
    (hlen : cfg.object_data_len = cfg.object_size)
    (hsize : cfg.object_size < 9223372036854775808)
    (hcreate : ∃ tag, w.store s.trace.length = .ok tag)
    (hfuel : ceilDiv cfg.object_size cfg.multipart_threshold + 3 ≤ fuel) :
    ∃ s' ups,
      runUploadMultiPart fuel w cfg s = .ret () s' ∧ s'.uploads = s.uploads ++ ups ∧
      ((∀ u ∈ ups, u.ok = true) →
        (ups.map (fun u => u.body.len)).sum = cfg.object_size ∧
        (∀ u ∈ ups.dropLast, u.body.len = cfg.multipart_threshold) ∧
        ups.length = ceilDiv cfg.object_size cfg.multipart_threshold) := by
  obtain ⟨s', ups, calls, hrun, hu, _, _, hd, _, _, hres⟩ :=
    runUploadMultiPart_run w cfg s fuel ht hlen hsize hcreate hfuel
  refine ⟨s', ups, hrun, hu, ?_⟩
  intro hok
  rcases hres with ⟨_, hl, hsum, _⟩ | ⟨⟨u, hlast, hu0⟩, _⟩
  · exact ⟨hsum, fun u hu' => (hd u hu').2, hl⟩
  · have := hok u (List.mem_of_getLast?_eq_some hlast)
    rw [hu0] at this
    cases this

/-- Witness of C1: 12 000 000 bytes at threshold 5 000 000, the first try of the
first part failing; the parts passed are `[0, 5000000)`, `[5000000, 10000000)` and
`[10000000, 12000000)`. -/
theorem multipart_split_lengths_witness :
    (0 < cfgScenario2.multipart_threshold ∧
      cfgScenario2.multipart_threshold < cfgScenario2.object_size) ∧
    (∃ s' ups,
      runUploadMultiPart 6 worldFlaky cfgScenario2 (resetState 10) = .ret () s' ∧
      s'.uploads = (resetState 10).uploads ++ ups ∧
      ((∀ u ∈ ups, u.ok = true) →
        (ups.map (fun u => u.body.len)).sum = cfgScenario2.object_size ∧
        (∀ u ∈ ups.dropLast, u.body.len = cfgScenario2.multipart_threshold) ∧
        ups.length = ceilDiv cfgScenario2.object_size cfgScenario2.multipart_threshold)) ∧
    (runUploadMultiPart 6 worldFlaky cfgScenario2 (resetState 10)).state.uploads
      = [⟨1, ⟨0, 5000000⟩, true⟩, ⟨2, ⟨5000000, 10000000⟩, true⟩,
         ⟨3, ⟨10000000, 12000000⟩, true⟩] :=
  ⟨by decide,
   multipart_split_lengths worldFlaky cfgScenario2 (resetState 10) 6 (by decide) rfl
      (by decide) ⟨7, rfl⟩ (by decide),
   by decide⟩

/-- C5 (amended): in `runUploadMultiPart`, with a positive threshold, the payload
`make([]byte, object_size)` and a session that was created, for every sequence of
store outcomes the function returns and, after `CreateMultipartUpload`:
a `CompleteMultipartUpload` is sent exactly when every call of `uploadPart`
succeeded; in that case the requests are `UploadPart` requests followed by one
`CompleteMultipartUpload` carrying `ceil(object_size / multipart_threshold)` non-nil
entries with part numbers `1, 2, ..., n` in this order; if a call of `uploadPart`
failed, it is the last one made, the requests are `UploadPart` requests followed by
one `AbortMultipartUpload` (so no completion and no later part), and the registry is
unchanged. -/
theorem multipart_complete_or_abort (w : World) (cfg : Config) (s : State) (fuel : Nat)
    (ht : 0 < cfg.multipart_threshold)
    (hlen : cfg.object_data_len = cfg.object_size)
    (hsize : cfg.object_size < 9223372036854775808)
    (hcreate : ∃ tag, w.store s.trace.length = .ok tag)
    (hfuel : ceilDiv cfg.object_size cfg.multipart_threshold + 3 ≤ fuel) :
    ∃ s' ups calls,
      runUploadMultiPart fuel w cfg s = .ret () s' ∧
      s'.uploads = s.uploads ++ ups ∧
      s'.trace = s.trace ++
        StoreCall.CreateMultipartUpload ⟨wrapInt32 (s.upload_count + 1)⟩ :: calls ∧
      ((∃ k parts, StoreCall.CompleteMultipartUpload k parts ∈ calls) ↔
        ∀ u ∈ ups, u.ok = true) ∧
      ((∀ u ∈ ups, u.ok = true) →
        ∃ parts pcs,
          calls = pcs ++
            [StoreCall.CompleteMultipartUpload ⟨wrapInt32 (s.upload_count + 1)⟩ parts] ∧
          (∀ c ∈ pcs, c.isUploadPart = true) ∧
          ups.length = ceilDiv cfg.object_size cfg.multipart_threshold ∧
          parts.length = ceilDiv cfg.object_size cfg.multipart_threshold ∧
          parts.map (Option.map CompletedPart.PartNumber)
            = (List.range (ceilDiv cfg.object_size cfg.multipart_threshold)).map
                (fun (i : Nat) => some (1 + (i : Int)))) ∧
      ((∃ u ∈ ups, u.ok = false) →
        ∃ pcs,
          calls = pcs ++ [StoreCall.AbortMultipartUpload ⟨wrapInt32 (s.upload_count + 1)⟩] ∧
          (∀ c ∈ pcs, c.isUploadPart = true) ∧
          (∃ u, ups.getLast? = some u ∧ u.ok = false) ∧
          (∀ u ∈ ups.dropLast, u.ok = true) ∧
          s'.keys = s.keys) := by
  obtain ⟨s', ups, calls, hrun, hu, htr, _, hd, hpn, _, hres⟩ :=
    runUploadMultiPart_run w cfg s fuel ht hlen hsize hcreate hfuel
  refine ⟨s', ups, calls, hrun, hu, htr, ?_⟩
  rcases hres with ⟨hok, hl, _, ⟨parts, pcs, hcalls, hpcs, hparts⟩, _⟩ |
    ⟨⟨u, hlast, hu0⟩, ⟨pcs, hcalls, hpcs⟩, hk, _⟩
  · have hmap : parts.map (Option.map CompletedPart.PartNumber)
        = (List.range (ceilDiv cfg.object_size cfg.multipart_threshold)).map
            (fun (i : Nat) => some (1 + (i : Int))) := by
      rw [hparts, ← hl]
      have : ups.map (fun u => some u.partNumber)
          = (ups.map PartUpload.partNumber).map some := by
        rw [List.map_map]; rfl
      rw [this, hpn, List.map_map]
      rfl
    refine ⟨⟨fun _ => hok, fun _ => ⟨⟨wrapInt32 (s.upload_count + 1)⟩, parts, ?_⟩⟩, ?_, ?_⟩
    · rw [hcalls]; simp
    · intro _
      refine ⟨parts, pcs, hcalls, hpcs, hl, ?_, hmap⟩
      have := congrArg List.length hmap
      simpa using this
    · rintro ⟨u, hu1, hu2⟩
      have := hok u hu1
      rw [hu2] at this
      cases this
  · have hnot : ¬ ∀ u ∈ ups, u.ok = true := by
      intro hok
      have := hok u (List.mem_of_getLast?_eq_some hlast)
      rw [hu0] at this
      cases this
    refine ⟨⟨?_, fun h => absurd h hnot⟩, fun h => absurd h hnot, ?_⟩
    · rintro ⟨k, parts, hmem⟩
      rw [hcalls] at hmem
      rcases List.mem_append.mp hmem with h | h
      · have := hpcs _ h
        simp [StoreCall.isUploadPart] at this
      · simp at h
    · intro _
      exact ⟨pcs, hcalls, hpcs, ⟨u, hlast, hu0⟩, fun v hv => (hd v hv).1, hk⟩

/-- Witness of C5 (amended): 12 000 000 bytes at threshold 5 000 000 with a store that always
succeeds give three parts of 5 000 000, 5 000 000 and 2 000 000 bytes numbered 1, 2, 3
and a completion call carrying the three entries in this order. -/
theorem multipart_complete_or_abort_witness :
    (∃ s' ups calls,
      runUploadMultiPart 6 worldAllOk cfgScenario2 (resetState 10) = .ret () s' ∧
      s'.uploads = (resetState 10).uploads ++ ups ∧
      s'.trace = (resetState 10).trace ++
        StoreCall.CreateMultipartUpload ⟨wrapInt32 ((resetState 10).upload_count + 1)⟩ :: calls ∧
      ((∃ k parts, StoreCall.CompleteMultipartUpload k parts ∈ calls) ↔
        ∀ u ∈ ups, u.ok = true)) ∧
    (runUploadMultiPart 6 worldAllOk cfgScenario2 (resetState 10)).state.trace
      = [.CreateMultipartUpload ⟨1⟩,
         .UploadPart ⟨1⟩ 1 ⟨0, 5000000⟩,
         .UploadPart ⟨1⟩ 2 ⟨5000000, 10000000⟩,
         .UploadPart ⟨1⟩ 3 ⟨10000000, 12000000⟩,
         .CompleteMultipartUpload ⟨1⟩ [some ⟨7, 1⟩, some ⟨7, 2⟩, some ⟨7, 3⟩]] ∧
    (runUploadMultiPart 6 worldAllOk cfgScenario2 (resetState 10)).state.keys = [⟨1⟩] :=
  ⟨(let ⟨s', ups, calls, h1, h2, h3, h4, _⟩ :=
      multipart_complete_or_abort worldAllOk cfgScenario2 (resetState 10) 6 (by decide) rfl
        (by decide) ⟨7, rfl⟩ (by decide)
    ⟨s', ups, calls, h1, h2, h3, h4⟩),
   by decide, by decide⟩

/-! ### C2, C3, C4: the counters on the failure paths -/

/-- C2 (code bug): an upload phase of one worker on the multipart path, started from
`upload_count = 0` and an empty registry, in which the only upload made has its
`CompleteMultipartUpload` rejected, ends with an empty registry and `upload_count = 1`:
the registry size differs from the counter. -/
theorem registry_size_differs_after_failed_completion :
    (runUpload worldCompleteFails cfgMultipart 8 (resetState 10)).state.keys.length = 0 ∧
    (runUpload worldCompleteFails cfgMultipart 8 (resetState 10)).state.upload_count = 1 ∧
    (runUpload worldCompleteFails cfgMultipart 8 (resetState 10)).state.trace
      = [.CreateMultipartUpload ⟨1⟩,
         .UploadPart ⟨1⟩ 1 ⟨0, 5242880⟩,
         .UploadPart ⟨1⟩ 2 ⟨5242880, 10485760⟩,
         .UploadPart ⟨1⟩ 3 ⟨10485760, 12582912⟩,
         .CompleteMultipartUpload ⟨1⟩ [some ⟨7, 1⟩, some ⟨7, 2⟩, some ⟨7, 3⟩]] ∧
    ∃ s', runUpload worldCompleteFails cfgMultipart 8 (resetState 10) = .ret () s' := by
  refine ⟨by decide, by decide, by decide, _, rfl⟩

/-- C3 (code bug): a download worker whose three `GET` requests all fail, started from
`download_count = 0`, ends with `download_count = -1`: in `runDownload` the decrement
comes before the increment, and the third failure returns without the increment. -/
theorem download_count_negative_after_three_failures :
    stateThreeUploaded.download_count = 0 ∧
    (runDownload worldAllFail stateThreeUploaded).2.2.download_count = -1 ∧
    (runDownload worldAllFail stateThreeUploaded).2.2.download_slowdown_count = 3 ∧
    (runDownload worldAllFail stateThreeUploaded).2.2.trace
      = [.GetObject ⟨1⟩, .GetObject ⟨2⟩, .GetObject ⟨3⟩] := by
  refine ⟨by decide, by decide, by decide, by decide⟩

/-- C4 (code bug): one `runUploadMultiPart` whose parts all succeed and whose
`CompleteMultipartUpload` is rejected leaves `upload_slowdown_count` at 0 and
`upload_count` at 1 (it was 0 before the upload), while `runUploadSinglePart` on a
rejected `PUT` and `runUploadMultiPart` on a failed part both end with
`upload_slowdown_count = 1` and `upload_count = 0`. -/
theorem failed_completion_keeps_counters :
    (resetState 10).upload_count = 0 ∧
    (runUploadMultiPart 6 worldCompleteFails cfgMultipart (resetState 10)).state.upload_count = 1 ∧
    (runUploadMultiPart 6 worldCompleteFails cfgMultipart
      (resetState 10)).state.upload_slowdown_count = 0 ∧
    (runUploadMultiPart 6 worldCompleteFails cfgMultipart (resetState 10)).state.keys = [] ∧
    (runUploadSinglePart worldAllFail (resetState 10)).upload_count = 0 ∧
    (runUploadSinglePart worldAllFail (resetState 10)).upload_slowdown_count = 1 ∧
    (runUploadMultiPart 6 worldPartFails cfgMultipart (resetState 10)).state.upload_count = 0 ∧
    (runUploadMultiPart 6 worldPartFails cfgMultipart
      (resetState 10)).state.upload_slowdown_count = 1 ∧
    (runUploadMultiPart 6 worldPartFails cfgMultipart (resetState 10)).state.trace
      = [.CreateMultipartUpload ⟨1⟩,
         .UploadPart ⟨1⟩ 1 ⟨0, 5242880⟩,
         .UploadPart ⟨1⟩ 1 ⟨0, 5242880⟩,
         .UploadPart ⟨1⟩ 1 ⟨0, 5242880⟩,
         .AbortMultipartUpload ⟨1⟩] := by
  refine ⟨by decide, by decide, by decide, by decide, by decide, by decide, by decide,
    by decide, by decide⟩

/-! ### C7: the delete worker when every `DELETE` succeeds -/

theorem wrapInt32_id (x : Int) (h0 : -2147483648 ≤ x) (h1 : x < 2147483648) :
    wrapInt32 x = x := by
  unfold wrapInt32; omega

theorem wrapInt32_le (x : Int) : wrapInt32 x ≤ 2147483647 := by
  unfold wrapInt32; omega

/-- The loop of `runDelete` from `delete_count = d` with `upload_count = N`, when the
next `N - d` requests succeed: it sends the `DELETE` requests for the numbers
`d + 1, ..., N` in this order and leaves through the test `objnum > upload_count`. -/
theorem deleteLoop_all_ok (w : World) (N : Nat) (hN : N ≤ 2147483646) :
    ∀ (fuel d : Nat) (s : State), s.delete_count = (d : Int) → d ≤ N →
      s.upload_count = (N : Int) →
      (∀ k, k < N - d → ∃ tag, w.store (s.trace.length + k) = .ok tag) →
      N - d + 1 ≤ fuel →
      ∃ s', deleteLoop w fuel 0 s = .ret (.exhausted, 0) s' ∧
        s'.trace = s.trace ++ (List.range (N - d)).map
          (fun (i : Nat) => StoreCall.DeleteObject ⟨(d : Int) + (i : Int) + 1⟩) ∧
        s'.delete_count = (N : Int) + 1 ∧ s'.ticks = s.ticks ∧
        s'.delete_slowdown_count = s.delete_slowdown_count := by
  intro fuel
  induction fuel with
  | zero => intro d s _ _ _ _ hfuel; omega
  | succ fuel ih =>
    intro d s hd hdN hup hok hfuel
    have hobj : (s.addDeleteCount 1).delete_count = (d : Int) + 1 := by
      show wrapInt32 (s.delete_count + 1) = _
      rw [hd]
      exact wrapInt32_id _ (by omega) (by omega)
    have hup1 : (s.addDeleteCount 1).upload_count = (N : Int) := hup
    rw [deleteLoop]
    simp only [hobj, hup1]
    by_cases hlast : d = N
    · subst hlast
      rw [if_pos (by omega)]
      refine ⟨_, rfl, ?_, hobj, rfl, rfl⟩
      simp [State.addDeleteCount]
    · have hdlt : d < N := by omega
      rw [if_neg (by omega)]
      obtain ⟨tag, htag⟩ := hok 0 (by omega)
      have hsend : (s.addDeleteCount 1).send w (StoreCall.DeleteObject ⟨(d : Int) + 1⟩)
          = (Outcome.ok tag, ((s.addDeleteCount 1).send w
              (StoreCall.DeleteObject ⟨(d : Int) + 1⟩)).2) :=
        Prod.ext (by simpa using htag) rfl
      rw [hsend]
      simp only [show ¬ (0 > 2) by omega, if_false]
      obtain ⟨s', hrun, htr, hdc, htk, hsl⟩ :=
        ih (d + 1) ((s.addDeleteCount 1).send w (StoreCall.DeleteObject ⟨(d : Int) + 1⟩)).2
          (by
            show (s.addDeleteCount 1).delete_count = _
            rw [hobj]
            push_cast
            rfl) (by omega) hup
          (by
            intro k hk
            obtain ⟨t, ht⟩ := hok (k + 1) (by omega)
            refine ⟨t, ?_⟩
            rw [← ht]
            show w.store ((s.trace ++ [_]).length + k) = _
            rw [List.length_append, List.length_singleton, Nat.add_assoc, Nat.add_comm 1 k])
          (by omega)
      refine ⟨s', hrun, ?_, hdc, htk, hsl⟩
      rw [htr]
      show (s.trace ++ [_]) ++ _ = _
      have hnd : N - d = (N - (d + 1)) + 1 := by omega
      rw [hnd, List.range_succ_eq_map, List.map_cons, List.map_map, List.append_assoc]
      refine congrArg _ ?_
      simp only [List.singleton_append]
      refine congrArg₂ _ (by simp) (List.map_congr_left ?_)
      intro i _
      simp only [Function.comp, Nat.succ_eq_add_one]
      push_cast
      refine congrArg _ (congrArg _ ?_)
      ring

/-- The loop of `runDelete` with `upload_count = 2147483647`, the largest `int32`, and
a store that accepts everything: no allocated number exceeds `upload_count`, and the
loop uses up any fuel. -/
theorem deleteLoop_max_count (w : World) (hw : ∀ k, ∃ tag, w.store k = .ok tag) :
    ∀ (fuel errcnt : Nat) (s : State), errcnt ≤ 2 → s.upload_count = 2147483647 →
      ∃ s', deleteLoop w fuel errcnt s = .fault .outOfFuel s' := by
  intro fuel
  induction fuel with
  | zero => intro errcnt s _ _; exact ⟨s, rfl⟩
  | succ fuel ih =>
    intro errcnt s he hup
    have hup1 : (s.addDeleteCount 1).upload_count = 2147483647 := hup
    have hle : ¬ (s.addDeleteCount 1).delete_count > (s.addDeleteCount 1).upload_count := by
      rw [hup1]
      have := wrapInt32_le (s.delete_count + 1)
      show ¬ wrapInt32 (s.delete_count + 1) > 2147483647
      omega
    obtain ⟨tag, htag⟩ := hw s.trace.length
    have hsend : (s.addDeleteCount 1).send w
        (StoreCall.DeleteObject ⟨(s.addDeleteCount 1).delete_count⟩)
        = (Outcome.ok tag, ((s.addDeleteCount 1).send w
            (StoreCall.DeleteObject ⟨(s.addDeleteCount 1).delete_count⟩)).2) :=
      Prod.ext htag rfl
    rw [deleteLoop]
    simp only [hle, if_false]
    rw [hsend]
    simp only [show ¬ (errcnt > 2) by omega, if_false]
    exact ih errcnt _ he hup

/-- C7 (counterexample): with `upload_count = 2147483647`, one worker, `delete_count = 0`
and every `DELETE` succeeding, `runDelete` does not terminate: the allocated number
wraps around instead of exceeding `upload_count`. -/
theorem runDelete_max_count_never_returns :
    ¬ ∃ fuel r s',
      runDelete fuel worldAllOk { resetState 10 with upload_count := 2147483647 }
        = .ret r s' := by
  rintro ⟨fuel, r, s', h⟩
  obtain ⟨s'', h2⟩ := deleteLoop_max_count worldAllOk (fun _ => ⟨7, rfl⟩) fuel 0
    { resetState 10 with upload_count := 2147483647 } (by omega) rfl
  unfold runDelete at h
  rw [h2] at h
  cases h

/-- C7 (amended): for every uploaded count `N` with `0 ≤ N ≤ 2147483646`, one
`runDelete` worker started from `delete_count = 0` in which the first `N` requests
succeed sends exactly the requests `DELETE Object-1`, ..., `DELETE Object-N`, in this
order, and then returns through the test `objnum > upload_count`; it reads the clock
once, for `delete_finish`, whatever the deadline and the clock are. -/
theorem runDelete_deletes_each_once (w : World) (s : State) (N fuel : Nat)
    (hN : N ≤ 2147483646) (hup : s.upload_count = (N : Int)) (hdel : s.delete_count = 0)
    (hok : ∀ k, k < N → ∃ tag, w.store (s.trace.length + k) = .ok tag)
    (hfuel : N + 1 ≤ fuel) :
    ∃ s', runDelete fuel w s = .ret (.exhausted, 0) s' ∧
      s'.trace = s.trace ++ (List.range N).map
        (fun (i : Nat) => StoreCall.DeleteObject ⟨(i : Int) + 1⟩) ∧
      s'.delete_count = (N : Int) + 1 ∧
      s'.delete_slowdown_count = s.delete_slowdown_count ∧
      s'.ticks = s.ticks + 1 := by
  obtain ⟨s1, hrun, htr, hdc, htk, hsl⟩ :=
    deleteLoop_all_ok w N hN fuel 0 s (by simpa using hdel) (by omega) hup
      (by simpa using hok) (by omega)
  unfold runDelete
  rw [hrun]
  simp only [State.now]
  refine ⟨_, rfl, ?_, ?_, ?_, ?_⟩
  · show s1.trace = _
    rw [htr]
    simp
  · exact hdc
  · exact hsl
  · show s1.ticks + 1 = _
    rw [htk]

set_option maxRecDepth 100000 in
/-- Witness of C7 (amended) at `N = 100`: the worker sends one hundred requests, the
first for `Object-1` and the last for `Object-100`, and returns. -/
theorem runDelete_deletes_each_once_witness :
    (∃ s', runDelete 101 worldAllOk stateHundredUploaded = .ret (.exhausted, 0) s' ∧
      s'.trace = stateHundredUploaded.trace ++ (List.range 100).map
        (fun (i : Nat) => StoreCall.DeleteObject ⟨(i : Int) + 1⟩) ∧
      s'.delete_count = ((100 : Nat) : Int) + 1 ∧
      s'.delete_slowdown_count = stateHundredUploaded.delete_slowdown_count ∧
      s'.ticks = stateHundredUploaded.ticks + 1) ∧
    (runDelete 101 worldAllOk stateHundredUploaded).state.trace.length = 100 ∧
    (runDelete 101 worldAllOk stateHundredUploaded).state.trace.head?
      = some (.DeleteObject ⟨1⟩) ∧
    (runDelete 101 worldAllOk stateHundredUploaded).state.trace.getLast?
      = some (.DeleteObject ⟨100⟩) :=
  ⟨runDelete_deletes_each_once worldAllOk stateHundredUploaded 100 101 (by decide) rfl rfl
      (fun _ _ => ⟨7, rfl⟩) (by decide),
   by decide, by decide, by decide⟩

/-! ### C8: the deadline -/

/-- C8 (counterexample): `runDelete` started when the clock (100) is already past the
deadline (10), with one uploaded object, still sends `DELETE Object-1`. -/
theorem runDelete_ignores_deadline :
    stateOneUploaded.endtime < worldLate.clock stateOneUploaded.ticks ∧
    (runDelete 3 worldLate stateOneUploaded).state.trace = [.DeleteObject ⟨1⟩] ∧
    runDelete 3 worldLate stateOneUploaded
      = .ret (.exhausted, 0) (runDelete 3 worldLate stateOneUploaded).state := by
  refine ⟨by decide, by decide, by decide⟩

/-- The callback of `runDownload` called after the deadline returns false at once. -/
theorem downloadCallback_after_deadline (w : World) (key : ObjectKey) (errcnt : Nat)
    (s : State) (hpast : s.endtime < w.clock s.ticks) :
    downloadCallback w key errcnt s = (some .deadline, errcnt, { s with ticks := s.ticks + 1 }) := by
  unfold downloadCallback State.now
  simp only
  rw [if_pos (by exact hpast)]

/-- The loop of `runDelete` entered with `errcnt = e ≤ 2` returns only through one of
its two `break` statements: the allocated number exceeds `upload_count`, or `errcnt`
has reached 3. -/
theorem deleteLoop_exits (w : World) :
    ∀ (fuel e : Nat) (s : State), e ≤ 2 →
      ∀ (r : Stop) (e' : Nat) (s' : State), deleteLoop w fuel e s = .ret (r, e') s' →
        (r = .exhausted ∧ s'.delete_count > s'.upload_count) ∨ (r = .errorLimit ∧ e' = 3) := by
  intro fuel
  induction fuel with
  | zero =>
    intro e s _ r e' s' h
    simp [deleteLoop] at h
  | succ fuel ih =>
    intro e s he r e' s' h
    rw [deleteLoop] at h
    simp only at h
    by_cases hex : (s.addDeleteCount 1).delete_count > (s.addDeleteCount 1).upload_count
    · rw [if_pos hex] at h
      simp only [Run.ret.injEq, Prod.mk.injEq] at h
      obtain ⟨⟨hr, _⟩, hs⟩ := h
      subst hs
      exact Or.inl ⟨hr.symm, hex⟩
    · rw [if_neg hex] at h
      cases hout : w.store s.trace.length with
      | err er =>
        have hsend : (s.addDeleteCount 1).send w
            (StoreCall.DeleteObject ⟨(s.addDeleteCount 1).delete_count⟩)
            = (Outcome.err er, ((s.addDeleteCount 1).send w
                (StoreCall.DeleteObject ⟨(s.addDeleteCount 1).delete_count⟩)).2) :=
          Prod.ext hout rfl
        rw [hsend] at h
        simp only at h
        by_cases hlim : e + 1 > 2
        · rw [if_pos hlim] at h
          simp only [Run.ret.injEq, Prod.mk.injEq] at h
          obtain ⟨⟨hr, he'⟩, _⟩ := h
          exact Or.inr ⟨hr.symm, by omega⟩
        · rw [if_neg hlim] at h
          exact ih (e + 1) _ (by omega) r e' s' h
      | ok tag =>
        have hsend : (s.addDeleteCount 1).send w
            (StoreCall.DeleteObject ⟨(s.addDeleteCount 1).delete_count⟩)
            = (Outcome.ok tag, ((s.addDeleteCount 1).send w
                (StoreCall.DeleteObject ⟨(s.addDeleteCount 1).delete_count⟩)).2) :=
          Prod.ext hout rfl
        rw [hsend] at h
        simp only at h
        rw [if_neg (by omega)] at h
        exact ih e _ he r e' s' h

/-- The loop of `runDelete` reads neither `endtime` nor the clock: under another
deadline and another clock it takes the same steps. -/
theorem deleteLoop_ignores_deadline (w : World) (clock' : Nat → Int) (endtime' : Int) :
    ∀ (fuel e : Nat) (s : State),
      deleteLoop ⟨w.store, clock'⟩ fuel e { s with endtime := endtime' } =
        match deleteLoop w fuel e s with
        | .ret r s1 => .ret r { s1 with endtime := endtime' }
        | .fault f s1 => .fault f { s1 with endtime := endtime' } := by
  intro fuel
  induction fuel with
  | zero => intro e s; rfl
  | succ fuel ih =>
    intro e s
    rw [deleteLoop, deleteLoop]
    simp only
    by_cases hex : (s.addDeleteCount 1).delete_count > (s.addDeleteCount 1).upload_count
    · have hex' : (State.addDeleteCount { s with endtime := endtime' } 1).delete_count
          > (State.addDeleteCount { s with endtime := endtime' } 1).upload_count := hex
      rw [if_pos hex, if_pos hex']
      rfl
    · have hex' : ¬ (State.addDeleteCount { s with endtime := endtime' } 1).delete_count
          > (State.addDeleteCount { s with endtime := endtime' } 1).upload_count := hex
      rw [if_neg hex, if_neg hex']
      cases hout : w.store s.trace.length with
      | err er =>
        have hsend : (s.addDeleteCount 1).send w
            (StoreCall.DeleteObject ⟨(s.addDeleteCount 1).delete_count⟩)
            = (Outcome.err er, ((s.addDeleteCount 1).send w
                (StoreCall.DeleteObject ⟨(s.addDeleteCount 1).delete_count⟩)).2) :=
          Prod.ext hout rfl
        have hsend' : (State.addDeleteCount { s with endtime := endtime' } 1).send
            ⟨w.store, clock'⟩ (StoreCall.DeleteObject
              ⟨(State.addDeleteCount { s with endtime := endtime' } 1).delete_count⟩)
            = (Outcome.err er, ((State.addDeleteCount { s with endtime := endtime' } 1).send
                ⟨w.store, clock'⟩ (StoreCall.DeleteObject
                  ⟨(State.addDeleteCount { s with endtime := endtime' } 1).delete_count⟩)).2) :=
          Prod.ext hout rfl
        rw [hsend, hsend']
        simp only
        by_cases hlim : e + 1 > 2
        · rw [if_pos hlim, if_pos hlim]
          rfl
        · rw [if_neg hlim, if_neg hlim]
          exact ih (e + 1) (((((s.addDeleteCount 1).send w
            (StoreCall.DeleteObject ⟨(s.addDeleteCount 1).delete_count⟩)).2
              ).addDeleteSlowdown 1).addDeleteCount (-1))
      | ok tag =>
        have hsend : (s.addDeleteCount 1).send w
            (StoreCall.DeleteObject ⟨(s.addDeleteCount 1).delete_count⟩)
            = (Outcome.ok tag, ((s.addDeleteCount 1).send w
                (StoreCall.DeleteObject ⟨(s.addDeleteCount 1).delete_count⟩)).2) :=
          Prod.ext hout rfl
        have hsend' : (State.addDeleteCount { s with endtime := endtime' } 1).send
            ⟨w.store, clock'⟩ (StoreCall.DeleteObject
              ⟨(State.addDeleteCount { s with endtime := endtime' } 1).delete_count⟩)
            = (Outcome.ok tag, ((State.addDeleteCount { s with endtime := endtime' } 1).send
                ⟨w.store, clock'⟩ (StoreCall.DeleteObject
                  ⟨(State.addDeleteCount { s with endtime := endtime' } 1).delete_count⟩)).2) :=
          Prod.ext hout rfl
        rw [hsend, hsend']
        simp only
        by_cases hlim : e > 2
        · rw [if_pos hlim, if_pos hlim]
          rfl
        · rw [if_neg hlim, if_neg hlim]
          exact ih e (((s.addDeleteCount 1).send w
            (StoreCall.DeleteObject ⟨(s.addDeleteCount 1).delete_count⟩)).2)

/-- C8 (amended): for `runUpload` and `runDownload`, if the clock is already past the
deadline `endtime` when the worker is about to start its next unit of work (the loop
head of `runUpload`, the next key of the traversal of `runDownload`), the worker
returns without sending any further request to the store.  `runDelete` does not
consult the deadline: started in the same situation it sends the same requests and
ends the same way as under any other deadline and any other clock, and it returns
only when the allocated number exceeds `upload_count` or at its third error. -/
theorem deadline_passed_no_requests (w : World) (cfg : Config) (s : State) (fuel : Nat)
    (keys : List ObjectKey) (errcnt : Nat) (hpast : s.endtime < w.clock s.ticks) :
    (∃ s', runUpload w cfg (fuel + 1) s = .ret () s' ∧ s'.trace = s.trace) ∧
    (keysRange w keys errcnt s).2.2.trace = s.trace ∧
    (∀ key rest, keys = key :: rest → (keysRange w keys errcnt s).1 = .deadline) ∧
    (keysRange w s.keys 0 s).2.2.trace = s.trace ∧
    (runDownload w s).2.2.trace = s.trace ∧
    (∀ (fuelD : Nat) (clock' : Nat → Int) (endtime' : Int),
      (runDelete fuelD ⟨w.store, clock'⟩ { s with endtime := endtime' }).state.trace
        = (runDelete fuelD w s).state.trace ∧
      (∀ r s1, runDelete fuelD w s = .ret r s1 →
        ∃ s2, runDelete fuelD ⟨w.store, clock'⟩ { s with endtime := endtime' } = .ret r s2) ∧
      (∀ f s1, runDelete fuelD w s = .fault f s1 →
        ∃ s2, runDelete fuelD ⟨w.store, clock'⟩ { s with endtime := endtime' } = .fault f s2)) ∧
    (∀ (fuelD : Nat) (r : Stop) (e' : Nat) (s1 : State),
      runDelete fuelD w s = .ret (r, e') s1 →
        (r = .exhausted ∧ s1.delete_count > s1.upload_count) ∨
        (r = .errorLimit ∧ e' = 3)) := by
  have hrange : ∀ (ks : List ObjectKey) (e : Nat), (keysRange w ks e s).2.2.trace = s.trace := by
    intro ks e
    cases ks with
    | nil => rfl
    | cons key rest =>
      unfold keysRange
      rw [downloadCallback_after_deadline w key e s hpast]
  refine ⟨?_, hrange keys errcnt, ?_, hrange s.keys 0, ?_, ?_, ?_⟩
  · unfold runUpload State.now
    simp only
    rw [if_neg (by show ¬ w.clock s.ticks < s.endtime; omega)]
    exact ⟨_, rfl, rfl⟩
  · rintro key rest rfl
    unfold keysRange
    rw [downloadCallback_after_deadline w key errcnt s hpast]
  · have := hrange s.keys 0
    unfold runDownload State.now
    exact this
  · intro fuelD clock' endtime'
    have hloop := deleteLoop_ignores_deadline w clock' endtime' fuelD 0 s
    unfold runDelete
    rw [hloop]
    rcases hr : deleteLoop w fuelD 0 s with ⟨r, s1⟩ | ⟨f, s1⟩
    · refine ⟨rfl, ?_, ?_⟩
      · intro r' s1' h
        simp only [State.now, Run.ret.injEq] at h
        obtain ⟨hr', _⟩ := h
        subst hr'
        exact ⟨_, rfl⟩
      · intro f s1' h
        simp at h
    · refine ⟨rfl, ?_, ?_⟩
      · intro r' s1' h
        simp at h
      · intro f' s1' h
        simp only [Run.fault.injEq] at h
        obtain ⟨hf, _⟩ := h
        subst hf
        exact ⟨_, rfl⟩
  · intro fuelD r e' s1 h
    unfold runDelete at h
    rcases hr : deleteLoop w fuelD 0 s with ⟨⟨r0, e0⟩, s0⟩ | ⟨f, s0⟩
    · rw [hr] at h
      simp only [State.now, Run.ret.injEq, Prod.mk.injEq] at h
      obtain ⟨⟨hr1, he1⟩, hs1⟩ := h
      subst hr1 he1 hs1
      exact deleteLoop_exits w fuelD 0 s (by omega) r0 e0 s0 hr
    · rw [hr] at h
      simp at h

/-- Witness of C8 (amended): clock 100, deadline 10; `runDelete` with one uploaded
object sends `DELETE Object-1` under this deadline as under the deadline 1000 with a
clock that stays at 0. -/
theorem deadline_passed_no_requests_witness :
    stateOneUploaded.endtime < worldLate.clock stateOneUploaded.ticks ∧
    ((∃ s', runUpload worldLate cfgMultipart (0 + 1) stateOneUploaded = .ret () s' ∧
        s'.trace = stateOneUploaded.trace) ∧
      (keysRange worldLate [⟨1⟩] 0 stateOneUploaded).2.2.trace = stateOneUploaded.trace ∧
      (∀ key rest, [(⟨1⟩ : ObjectKey)] = key :: rest →
        (keysRange worldLate [⟨1⟩] 0 stateOneUploaded).1 = .deadline) ∧
      (keysRange worldLate stateOneUploaded.keys 0 stateOneUploaded).2.2.trace
        = stateOneUploaded.trace ∧
      (runDownload worldLate stateOneUploaded).2.2.trace = stateOneUploaded.trace) ∧
    (runDownload worldLate stateOneUploaded).2.2.trace = [] ∧
    (runDelete 3 ⟨worldLate.store, fun _ => 0⟩
        { stateOneUploaded with endtime := 1000 }).state.trace
      = (runDelete 3 worldLate stateOneUploaded).state.trace ∧
    (runDelete 3 worldLate stateOneUploaded).state.trace = [.DeleteObject ⟨1⟩] ∧
    ((Stop.exhausted = Stop.exhausted ∧
        (runDelete 3 worldLate stateOneUploaded).state.delete_count
          > (runDelete 3 worldLate stateOneUploaded).state.upload_count) ∨
      (Stop.exhausted = Stop.errorLimit ∧ 0 = 3)) :=
  ⟨by decide,
   (let ⟨h1, h2, h3, h4, h5, _⟩ :=
      deadline_passed_no_requests worldLate cfgMultipart stateOneUploaded 0 [⟨1⟩] 0 (by decide)
    ⟨h1, h2, h3, h4, h5⟩),
   by decide,
   ((deadline_passed_no_requests worldLate cfgMultipart stateOneUploaded 0 [⟨1⟩] 0
      (by decide)).2.2.2.2.2.1 3 (fun _ => 0) 1000).1,
   by decide,
   (deadline_passed_no_requests worldLate cfgMultipart stateOneUploaded 0 [⟨1⟩] 0
      (by decide)).2.2.2.2.2.2 3 .exhausted 0 _ rfl⟩

/-! ### C9: the upload path -/

theorem TraceExt.refl (p : StoreCall → Bool) (s : State) : TraceExt p s s :=
  ⟨[], by simp, by simp⟩

theorem TraceExt.trans {p : StoreCall → Bool} {s1 s2 s3 : State}
    (h1 : TraceExt p s1 s2) (h2 : TraceExt p s2 s3) : TraceExt p s1 s3 := by
  obtain ⟨c1, ht1, hp1⟩ := h1
  obtain ⟨c2, ht2, hp2⟩ := h2
  refine ⟨c1 ++ c2, by rw [ht2, ht1, List.append_assoc], ?_⟩
  intro c hc
  rcases List.mem_append.mp hc with h | h
  · exact hp1 c h
  · exact hp2 c h

theorem TraceExt.of_trace_eq {p : StoreCall → Bool} {s1 s2 s3 : State}
    (h1 : TraceExt p s1 s2) (h2 : s3.trace = s2.trace) : TraceExt p s1 s3 := by
  obtain ⟨c1, ht1, hp1⟩ := h1
  exact ⟨c1, by rw [h2, ht1], hp1⟩

theorem TraceExt.send (p : StoreCall → Bool) (s : State) (w : World) (c : StoreCall)
    (hc : p c = true) : TraceExt p s (s.send w c).2 :=
  ⟨[c], rfl, by simpa using hc⟩

theorem storeKey_trace (s : State) (k : ObjectKey) : (s.storeKey k).trace = s.trace := by
  unfold State.storeKey
  split <;> rfl

/-- The requests of `runUploadSinglePart`: one `PUT`. -/
theorem runUploadSinglePart_ext (w : World) (s : State) :
    TraceExt StoreCall.isPut s (runUploadSinglePart w s) := by
  have h := TraceExt.send StoreCall.isPut (s.addUploadCount 1) w
    (StoreCall.PutObject ⟨(s.addUploadCount 1).upload_count⟩) rfl
  unfold runUploadSinglePart
  simp only
  rcases hs : (s.addUploadCount 1).send w
    (StoreCall.PutObject ⟨(s.addUploadCount 1).upload_count⟩) with ⟨o, s2⟩
  rw [hs] at h
  have h' : TraceExt StoreCall.isPut s s2 := h
  cases o with
  | ok tag => exact h'.of_trace_eq (storeKey_trace _ _)
  | err e => exact h'.of_trace_eq rfl

/-- The requests of the retry loop of `uploadPart`, whatever the fuel: multipart
requests only. -/
theorem uploadPartLoop_ext (w : World) (key : ObjectKey) (b : ByteSlice) (pn : Int) :
    ∀ (fuel : Nat) (tryNum : Int) (s : State),
      TraceExt StoreCall.isMultipart s (uploadPartLoop w key b pn fuel tryNum s).state := by
  intro fuel
  induction fuel with
  | zero => intro tryNum s; exact TraceExt.refl _ _
  | succ fuel ih =>
    intro tryNum s
    have h := TraceExt.send StoreCall.isMultipart s w (StoreCall.UploadPart key pn b) rfl
    unfold uploadPartLoop
    split
    · rcases hs : s.send w (StoreCall.UploadPart key pn b) with ⟨o, s1⟩
      rw [hs] at h
      cases o with
      | ok tag => exact h
      | err e =>
        simp only
        split
        · split <;> exact h
        · exact h.trans (ih _ _)
    · exact TraceExt.refl _ _

/-- The requests of the split loop, whatever the fuel and the configuration:
multipart requests only. -/
theorem splitLoop_ext (w : World) (cfg : Config) (key : ObjectKey) :
    ∀ (fuel curr remaining : Nat) (pn : Int) (cps : List (Option CompletedPart)) (s : State),
      TraceExt StoreCall.isMultipart s (splitLoop w cfg key fuel curr remaining pn cps s).state := by
  intro fuel
  induction fuel with
  | zero => intro curr remaining pn cps s; exact TraceExt.refl _ _
  | succ fuel ih =>
    intro curr remaining pn cps s
    unfold splitLoop
    split
    · simp only
      split
      · exact TraceExt.refl _ _
      · rename_i fileBytes _
        have hup := uploadPartLoop_ext w key fileBytes pn fuel 1 s
        change TraceExt StoreCall.isMultipart s (uploadPart fuel w key fileBytes pn s).state at hup
        split
        · rename_i f s1 heq
          rw [heq] at hup
          exact hup
        · rename_i s1 heq
          rw [heq] at hup
          obtain ⟨c1, ht1, hp1⟩ := hup
          refine ⟨c1 ++ [StoreCall.AbortMultipartUpload key], ?_, ?_⟩
          · show (abortMultipartUpload w key _).2.trace = _
            rw [abortMultipartUpload_state]
            show s1.trace ++ [_] = _
            rw [show s1.trace = s.trace ++ c1 from ht1, List.append_assoc]
          · intro c hc
            rcases List.mem_append.mp hc with h | h
            · exact hp1 c h
            · rw [List.mem_singleton.mp h]; rfl
        · rename_i completedPart s1 heq
          rw [heq] at hup
          have hlog : TraceExt StoreCall.isMultipart s
              ({ s1 with uploads := s1.uploads ++ [PartUpload.mk pn fileBytes true] } : State) :=
            TraceExt.of_trace_eq hup rfl
          exact hlog.trans (ih _ _ _ _ _)
    · exact TraceExt.refl _ _

/-- The requests of `runUploadMultiPart`, whatever the fuel and the configuration:
multipart requests only. -/
theorem runUploadMultiPart_ext (w : World) (cfg : Config) (fuel : Nat) (s : State) :
    TraceExt StoreCall.isMultipart s (runUploadMultiPart fuel w cfg s).state := by
  have h := TraceExt.send StoreCall.isMultipart (s.addUploadCount 1) w
    (StoreCall.CreateMultipartUpload ⟨(s.addUploadCount 1).upload_count⟩) rfl
  unfold runUploadMultiPart
  simp only
  rcases hs : (s.addUploadCount 1).send w
    (StoreCall.CreateMultipartUpload ⟨(s.addUploadCount 1).upload_count⟩) with ⟨o, s2⟩
  rw [hs] at h
  have h' : TraceExt StoreCall.isMultipart s s2 := h
  cases o with
  | err e => exact h'.of_trace_eq rfl
  | ok tag =>
    simp only
    have hsplit := splitLoop_ext w cfg ⟨(s.addUploadCount 1).upload_count⟩ fuel 0
      cfg.object_size 1 [] s2
    rcases hr : splitLoop w cfg ⟨(s.addUploadCount 1).upload_count⟩ fuel 0
      cfg.object_size 1 [] s2 with ⟨res, s3⟩ | ⟨f, s3⟩
    · rw [hr] at hsplit
      cases res with
      | none => exact h'.trans hsplit
      | some parts =>
        simp only
        have hc : TraceExt StoreCall.isMultipart s3
            (completeMultipartUpload w ⟨(s.addUploadCount 1).upload_count⟩ parts s3).2 := by
          rw [completeMultipartUpload_state]
          exact ⟨[_], rfl, by simp [StoreCall.isMultipart]⟩
        rcases hcm : completeMultipartUpload w ⟨(s.addUploadCount 1).upload_count⟩ parts s3
          with ⟨_ | e, s4⟩
        · rw [hcm] at hc
          exact (h'.trans (hsplit.trans hc)).of_trace_eq (storeKey_trace _ _)
        · rw [hcm] at hc
          exact h'.trans (hsplit.trans hc)
    · rw [hr] at hsplit
      exact h'.trans hsplit

/-- The requests of `runUpload`, whatever the fuel: `PUT` requests only when
`use_multipart_upload` is false, multipart requests only when it is true. -/
theorem runUpload_ext (w : World) (cfg : Config) :
    ∀ (fuel : Nat) (s : State),
      TraceExt (if cfg.use_multipart_upload then StoreCall.isMultipart else StoreCall.isPut)
        s (runUpload w cfg fuel s).state := by
  intro fuel
  induction fuel with
  | zero => intro s; exact TraceExt.refl _ _
  | succ fuel ih =>
    intro s
    have htick : ∀ p, TraceExt p s { s with ticks := s.ticks + 1 } :=
      fun p => ⟨[], by simp, by simp⟩
    unfold runUpload State.now
    simp only
    by_cases hnow : w.clock s.ticks < s.endtime
    · rw [if_pos hnow]
      cases hm : cfg.use_multipart_upload with
      | true =>
        simp only [hm, if_true] at ih ⊢
        have h1 := runUploadMultiPart_ext w cfg fuel { s with ticks := s.ticks + 1 }
        rcases hr : runUploadMultiPart fuel w cfg { s with ticks := s.ticks + 1 }
          with ⟨u, s2⟩ | ⟨f, s2⟩
        · rw [hr] at h1
          exact ((htick _).trans h1).trans (ih s2)
        · rw [hr] at h1
          exact (htick _).trans h1
      | false =>
        simp only [hm] at ih ⊢
        have h1 := runUploadSinglePart_ext w { s with ticks := s.ticks + 1 }
        exact ((htick _).trans h1).trans (ih _)
    · rw [if_neg hnow]
      exact ⟨[], by simp [State.addRunningThreads, Run.state], by simp⟩

/-- C9: `init` fixes `use_multipart_upload` to `object_size > multipart_threshold`, and
in any run of `runUpload` under the configuration it returns, whatever the store, the
clock and the number of rounds, every request sent is a single-part `PUT` when
`object_size <= multipart_threshold` and every request belongs to the multipart
protocol when `object_size > multipart_threshold`. -/
theorem upload_path_fixed_at_startup (ToBytes : String → Except String Nat)
    (sizeArg multipartThresholdArg : String) (cfg : Config)
    (hinit : init ToBytes sizeArg multipartThresholdArg = .ok cfg) :
    ToBytes sizeArg = .ok cfg.object_size ∧
    ToBytes multipartThresholdArg = .ok cfg.multipart_threshold ∧
    cfg.use_multipart_upload = decide (cfg.object_size > cfg.multipart_threshold) ∧
    ∀ (w : World) (fuel : Nat) (s : State),
      ∃ calls, (runUpload w (allocPayload cfg) fuel s).state.trace = s.trace ++ calls ∧
        (cfg.object_size ≤ cfg.multipart_threshold → ∀ c ∈ calls, c.isPut = true) ∧
        (cfg.object_size > cfg.multipart_threshold → ∀ c ∈ calls, c.isMultipart = true) := by
  unfold init at hinit
  cases hsz : ToBytes sizeArg with
  | error e => rw [hsz] at hinit; cases hinit
  | ok object_size =>
    cases hth : ToBytes multipartThresholdArg with
    | error e => rw [hsz, hth] at hinit; cases hinit
    | ok multipart_threshold =>
      rw [hsz, hth] at hinit
      simp only at hinit
      split at hinit
      · cases hinit
      · cases hinit
        refine ⟨rfl, rfl, rfl, ?_⟩
        intro w fuel s
        obtain ⟨calls, htr, hp⟩ := runUpload_ext w (allocPayload
          { object_size := object_size, multipart_threshold := multipart_threshold,
            use_multipart_upload := decide (object_size > multipart_threshold),
            object_data_len := 0 }) fuel s
        refine ⟨calls, htr, ?_, ?_⟩
        · intro hle c hc
          have := hp c hc
          simpa [allocPayload, Nat.not_lt.mpr hle] using this
        · intro hgt c hc
          have := hp c hc
          simpa [allocPayload, hgt] using this

/-- Witness of C9, the first end-to-end scenario: 1 000 000 bytes with threshold
5 000 000 000 bytes select the single-part path; one successful `PUT` takes
`upload_count` from 0 to 1 and registers exactly one key. -/
theorem upload_path_fixed_at_startup_witness :
    init demoToBytes "1000000B" "5000000000B" = .ok cfgScenario1 ∧
    (demoToBytes "1000000B" = .ok cfgScenario1.object_size ∧
      demoToBytes "5000000000B" = .ok cfgScenario1.multipart_threshold ∧
      cfgScenario1.use_multipart_upload
        = decide (cfgScenario1.object_size > cfgScenario1.multipart_threshold) ∧
      ∀ (w : World) (fuel : Nat) (s : State),
        ∃ calls, (runUpload w (allocPayload cfgScenario1) fuel s).state.trace = s.trace ++ calls ∧
          (cfgScenario1.object_size ≤ cfgScenario1.multipart_threshold →
            ∀ c ∈ calls, c.isPut = true) ∧
          (cfgScenario1.object_size > cfgScenario1.multipart_threshold →
            ∀ c ∈ calls, c.isMultipart = true)) ∧
    cfgScenario1.use_multipart_upload = false ∧
    (runUpload worldOneRound (allocPayload cfgScenario1) 2 (resetState 10)).state.trace
      = [.PutObject ⟨1⟩] ∧
    (runUpload worldOneRound (allocPayload cfgScenario1) 2 (resetState 10)).state.upload_count = 1 ∧
    (runUpload worldOneRound (allocPayload cfgScenario1) 2 (resetState 10)).state.keys = [⟨1⟩] :=
  ⟨rfl,
   upload_path_fixed_at_startup demoToBytes "1000000B" "5000000000B" cfgScenario1 rfl,
   by decide, by decide, by decide, by decide⟩

/-! ### C10: the error count of the download and delete workers -/

theorem failures_front (w : World) (a n : Nat) :
    failures w a (n + 1)
      = (if (w.store a).isErr then 1 else 0) + failures w (a + 1) n := by
  induction n with
  | zero => simp [failures]
  | succ n ih =>
    rw [failures, ih, failures]
    have : a + (n + 1) = a + 1 + n := by omega
    rw [this]
    omega

/-- One more request in front of a run that satisfies `FailFastFrom`. -/
theorem FailFastFrom.step (w : World) (s s1 : State) (e e1 : Nat) (r : Stop) (e' : Nat)
    (s' : State) (n : Nat) (htr : s1.trace.length = s.trace.length + 1)
    (he : e1 = e + (if (w.store s.trace.length).isErr then 1 else 0))
    (h : FailFastFrom w s1 e1 r e' s' n) : FailFastFrom w s e r e' s' (n + 1) := by
  obtain ⟨h1, h2, h3, h4, h5⟩ := h
  refine ⟨by omega, ?_, h3, h4, ?_⟩
  · rw [failures_front, h2, he, htr]; omega
  · intro h
    obtain ⟨hn, hl⟩ := h5 h
    refine ⟨by omega, ?_⟩
    rw [htr] at hl
    have : s.trace.length + 1 + n - 1 = s.trace.length + (n + 1) - 1 := by omega
    rw [← this]; exact hl

/-- The traversal of `runDownload` entered with `errcnt = e ≤ 2`. -/
theorem keysRange_failFast (w : World) :
    ∀ (ks : List ObjectKey) (e : Nat) (s : State), e ≤ 2 →
      ∃ n, FailFastFrom w s e (keysRange w ks e s).1 (keysRange w ks e s).2.1
        (keysRange w ks e s).2.2 n := by
  intro ks
  induction ks with
  | nil =>
    intro e s he
    refine ⟨0, rfl, by simp [keysRange, failures], by simp [keysRange]; omega, ?_, ?_⟩
    · simp [keysRange]; omega
    · simp [keysRange]; omega
  | cons key rest ih =>
    intro e s he
    unfold keysRange downloadCallback State.now
    simp only
    by_cases hnow : w.clock s.ticks > s.endtime
    · rw [if_pos hnow]
      refine ⟨0, rfl, by simp [failures], by simp; omega, ?_, ?_⟩
      · simp; omega
      · simp; omega
    · rw [if_neg hnow]
      cases hout : w.store s.trace.length with
      | err er =>
        have hsend : State.send { s with ticks := s.ticks + 1 } w (StoreCall.GetObject key)
            = (Outcome.err er, (State.send { s with ticks := s.ticks + 1 } w
                (StoreCall.GetObject key)).2) := Prod.ext hout rfl
        rw [hsend]
        simp only
        by_cases hlim : e + 1 > 2
        · rw [if_pos hlim]
          refine ⟨1, by simp [State.send, State.addDownloadCount, State.addDownloadSlowdown],
            ?_, ?_, ?_, ?_⟩
          · simp [failures, hout, Outcome.isErr]
          · simp; omega
          · simp; omega
          · intro _
            simp [hout, Outcome.isErr]
        · rw [if_neg hlim]
          simp only
          obtain ⟨n, hn⟩ := ih (e + 1)
            (((((State.send { s with ticks := s.ticks + 1 } w (StoreCall.GetObject key)).2
              ).addDownloadSlowdown 1).addDownloadCount (-1)).addDownloadCount 1) (by omega)
          exact ⟨n + 1, FailFastFrom.step w s _ e (e + 1) _ _ _ n
            (by simp [State.send, State.addDownloadCount, State.addDownloadSlowdown])
            (by simp [hout, Outcome.isErr]) hn⟩
      | ok tag =>
        have hsend : State.send { s with ticks := s.ticks + 1 } w (StoreCall.GetObject key)
            = (Outcome.ok tag, (State.send { s with ticks := s.ticks + 1 } w
                (StoreCall.GetObject key)).2) := Prod.ext hout rfl
        rw [hsend]
        simp only
        rw [if_neg (by omega)]
        simp only
        obtain ⟨n, hn⟩ := ih e
          ((((State.send { s with ticks := s.ticks + 1 } w (StoreCall.GetObject key)).2
            )).addDownloadCount 1) he
        exact ⟨n + 1, FailFastFrom.step w s _ e e _ _ _ n
          (by simp [State.send, State.addDownloadCount])
          (by simp [hout, Outcome.isErr]) hn⟩

/-- The loop of `runDelete` entered with `errcnt = e ≤ 2`: it leaves through one of
its two `break` statements as `FailFastFrom` describes, or it has used up its fuel
after sending `fuel` requests of which, with `e`, at most two failed. -/
theorem deleteLoop_failFast (w : World) :
    ∀ (fuel e : Nat) (s : State), e ≤ 2 →
      match deleteLoop w fuel e s with
      | .ret (r, e') s' => r ≠ .deadline ∧ ∃ n, n ≤ fuel ∧ FailFastFrom w s e r e' s' n
      | .fault f s' =>
        f = .outOfFuel ∧ s'.trace.length = s.trace.length + fuel ∧
          e + failures w s.trace.length fuel ≤ 2 := by
  intro fuel
  induction fuel with
  | zero =>
    intro e s he
    simp only [deleteLoop, failures]
    exact ⟨trivial, rfl, he⟩
  | succ fuel ih =>
    intro e s he
    unfold deleteLoop
    simp only
    by_cases hex : (s.addDeleteCount 1).delete_count > (s.addDeleteCount 1).upload_count
    · rw [if_pos hex]
      simp only
      refine ⟨by simp, 0, by omega, rfl, by simp [failures], by omega, ?_, ?_⟩
      · simp; omega
      · omega
    · rw [if_neg hex]
      cases hout : w.store s.trace.length with
      | err er =>
        have hsend : (s.addDeleteCount 1).send w
            (StoreCall.DeleteObject ⟨(s.addDeleteCount 1).delete_count⟩)
            = (Outcome.err er, ((s.addDeleteCount 1).send w
                (StoreCall.DeleteObject ⟨(s.addDeleteCount 1).delete_count⟩)).2) :=
          Prod.ext hout rfl
        rw [hsend]
        simp only
        by_cases hlim : e + 1 > 2
        · rw [if_pos hlim]
          simp only
          refine ⟨by simp, 1, by omega, ?_, ?_, by omega, ?_, ?_⟩
          · simp [State.send, State.addDeleteCount, State.addDeleteSlowdown]
          · simp [failures, hout, Outcome.isErr]
          · simp; omega
          · intro _
            simp [hout, Outcome.isErr]
        · rw [if_neg hlim]
          have h := ih (e + 1)
            (((((s.addDeleteCount 1).send w
              (StoreCall.DeleteObject ⟨(s.addDeleteCount 1).delete_count⟩)).2
                ).addDeleteSlowdown 1).addDeleteCount (-1)) (by omega)
          have hlen : (((((s.addDeleteCount 1).send w
              (StoreCall.DeleteObject ⟨(s.addDeleteCount 1).delete_count⟩)).2
                ).addDeleteSlowdown 1).addDeleteCount (-1)).trace.length
              = s.trace.length + 1 := by
            simp [State.send, State.addDeleteCount, State.addDeleteSlowdown]
          rcases hr : deleteLoop w fuel (e + 1)
            (((((s.addDeleteCount 1).send w
              (StoreCall.DeleteObject ⟨(s.addDeleteCount 1).delete_count⟩)).2
                ).addDeleteSlowdown 1).addDeleteCount (-1))
            with ⟨⟨r, e'⟩, s'⟩ | ⟨f, s'⟩
          · rw [hr] at h
            simp only at h ⊢
            obtain ⟨h1, n, hn, hff⟩ := h
            exact ⟨h1, n + 1, by omega, FailFastFrom.step w s _ e (e + 1) r e' s' n hlen
              (by simp [hout, Outcome.isErr]) hff⟩
          · rw [hr] at h
            simp only at h ⊢
            obtain ⟨h1, h2, h3⟩ := h
            refine ⟨h1, by rw [h2, hlen]; omega, ?_⟩
            rw [failures_front, hout]
            rw [hlen] at h3
            simp only [Outcome.isErr, if_true]
            omega
      | ok tag =>
        have hsend : (s.addDeleteCount 1).send w
            (StoreCall.DeleteObject ⟨(s.addDeleteCount 1).delete_count⟩)
            = (Outcome.ok tag, ((s.addDeleteCount 1).send w
                (StoreCall.DeleteObject ⟨(s.addDeleteCount 1).delete_count⟩)).2) :=
          Prod.ext hout rfl
        rw [hsend]
        simp only
        rw [if_neg (by omega)]
        have h := ih e
          (((s.addDeleteCount 1).send w
            (StoreCall.DeleteObject ⟨(s.addDeleteCount 1).delete_count⟩)).2) he
        have hlen : (((s.addDeleteCount 1).send w
            (StoreCall.DeleteObject ⟨(s.addDeleteCount 1).delete_count⟩)).2).trace.length
            = s.trace.length + 1 := by
          simp [State.send, State.addDeleteCount]
        rcases hr : deleteLoop w fuel e
          (((s.addDeleteCount 1).send w
            (StoreCall.DeleteObject ⟨(s.addDeleteCount 1).delete_count⟩)).2)
          with ⟨⟨r, e'⟩, s'⟩ | ⟨f, s'⟩
        · rw [hr] at h
          simp only at h ⊢
          obtain ⟨h1, n, hn, hff⟩ := h
          exact ⟨h1, n + 1, by omega, FailFastFrom.step w s _ e e r e' s' n hlen
            (by simp [hout, Outcome.isErr]) hff⟩
        · rw [hr] at h
          simp only at h ⊢
          obtain ⟨h1, h2, h3⟩ := h
          refine ⟨h1, by rw [h2, hlen]; omega, ?_⟩
          rw [failures_front, hout]
          rw [hlen] at h3
          simp only [Outcome.isErr]
          simp only [Bool.false_eq_true, if_false]
          omega

/-- C10: in `runDownload` and in `runDelete`, for every sequence of store outcomes,
the final `errcnt` is the number of failed requests among all the requests the worker
sent since it started (a success does not reset it); it never exceeds 3; the worker
leaves through the error limit exactly when it is 3, and then the last request it
sent is the third failure, consecutive or not.  `runDelete` runs out of fuel only
after sending `fuel` requests of which at most two failed. -/
theorem errcnt_counts_all_failures (w : World) (s : State) (fuel : Nat) :
    (∃ n, (runDownload w s).2.2.trace.length = s.trace.length + n ∧
      (runDownload w s).2.1 = failures w s.trace.length n ∧
      (runDownload w s).2.1 ≤ 3 ∧
      ((runDownload w s).1 = .errorLimit ↔ (runDownload w s).2.1 = 3) ∧
      ((runDownload w s).2.1 = 3 →
        1 ≤ n ∧ (w.store (s.trace.length + n - 1)).isErr = true)) ∧
    (match runDelete fuel w s with
      | .ret (r, errcnt) s' =>
        ∃ n, n ≤ fuel ∧ s'.trace.length = s.trace.length + n ∧
          errcnt = failures w s.trace.length n ∧
          errcnt ≤ 3 ∧
          (r = .errorLimit ↔ errcnt = 3) ∧
          (errcnt = 3 → 1 ≤ n ∧ (w.store (s.trace.length + n - 1)).isErr = true)
      | .fault f s' =>
        f = .outOfFuel ∧ s'.trace.length = s.trace.length + fuel ∧
          failures w s.trace.length fuel ≤ 2) := by
  constructor
  · obtain ⟨n, hn⟩ := keysRange_failFast w s.keys 0 s (by omega)
    rcases hk : keysRange w s.keys 0 s with ⟨r, e', s1⟩
    rw [hk] at hn
    obtain ⟨h1, h2, h3, h4, h5⟩ := hn
    have hrun : runDownload w s
        = (r, e', ({ ({ s1 with ticks := s1.ticks + 1 } : State) with
            download_finish := w.clock s1.ticks } : State).addRunningThreads (-1)) := by
      unfold runDownload
      rw [hk]
      rfl
    rw [hrun]
    refine ⟨n, h1, ?_, h3, h4, h5⟩
    simpa using h2
  · have h := deleteLoop_failFast w fuel 0 s (by omega)
    unfold runDelete
    rcases hr : deleteLoop w fuel 0 s with ⟨⟨r, e'⟩, s'⟩ | ⟨f, s'⟩
    · rw [hr] at h
      simp only at h ⊢
      obtain ⟨_, n, hn, h1, h2, h3, h4, h5⟩ := h
      refine ⟨n, hn, h1, ?_, h3, h4, h5⟩
      simpa using h2
    · rw [hr] at h
      simp only at h ⊢
      obtain ⟨h1, h2, h3⟩ := h
      exact ⟨h1, h2, by omega⟩

/-- Witness of C10 with failures that are not consecutive: the first, third and
fifth requests fail; both workers stop right after the fifth request with
`errcnt = 3`, leaving through the error limit. -/
theorem errcnt_counts_all_failures_witness :
    (runDownload worldAlternating stateEightUploaded).1 = .errorLimit ∧
    (runDownload worldAlternating stateEightUploaded).2.1 = 3 ∧
    (runDownload worldAlternating stateEightUploaded).2.2.trace
      = [.GetObject ⟨1⟩, .GetObject ⟨2⟩, .GetObject ⟨3⟩, .GetObject ⟨4⟩, .GetObject ⟨5⟩] ∧
    (∃ s', runDelete 6 worldAlternating stateEightUploaded = .ret (.errorLimit, 3) s') ∧
    (runDelete 6 worldAlternating stateEightUploaded).state.trace
      = [.DeleteObject ⟨1⟩, .DeleteObject ⟨1⟩, .DeleteObject ⟨2⟩, .DeleteObject ⟨2⟩,
         .DeleteObject ⟨3⟩] ∧
    (match runDelete 6 worldAlternating stateEightUploaded with
      | .ret (r, errcnt) s' =>
        ∃ n, n ≤ 6 ∧ s'.trace.length = stateEightUploaded.trace.length + n ∧
          errcnt = failures worldAlternating stateEightUploaded.trace.length n ∧
          errcnt ≤ 3 ∧
          (r = .errorLimit ↔ errcnt = 3) ∧
          (errcnt = 3 → 1 ≤ n ∧
            (worldAlternating.store (stateEightUploaded.trace.length + n - 1)).isErr = true)
      | .fault f s' =>
        f = .outOfFuel ∧ s'.trace.length = stateEightUploaded.trace.length + 6 ∧
          failures worldAlternating stateEightUploaded.trace.length 6 ≤ 2) :=
  ⟨by decide, by decide, by decide, ⟨_, rfl⟩, by decide,
   (errcnt_counts_all_failures worldAlternating stateEightUploaded 6).2⟩

/-! ### The registry on the single-part path -/

/-- One `runUploadSinglePart` from a state in which the registry matches the counter:
a rejected `PUT` leaves both as they were, an accepted one adds the key
`Object-(n+1)` and makes the counter `n + 1`. -/
theorem runUploadSinglePart_registry (w : World) (s : State) (n : Nat)
    (hn : n ≤ 2147483646) (h : RegistryMatches n s) :
    RegistryMatches n (runUploadSinglePart w s) ∨
      RegistryMatches (n + 1) (runUploadSinglePart w s) := by
  obtain ⟨hc, hk⟩ := h
  have hobj : (s.addUploadCount 1).upload_count = (n : Int) + 1 := by
    show wrapInt32 (s.upload_count + 1) = _
    rw [hc]
    exact wrapInt32_id _ (by omega) (by omega)
  unfold runUploadSinglePart
  simp only [hobj]
  cases hout : w.store s.trace.length with
  | err er =>
    have hsend : (s.addUploadCount 1).send w (StoreCall.PutObject ⟨(n : Int) + 1⟩)
        = (Outcome.err er, ((s.addUploadCount 1).send w
            (StoreCall.PutObject ⟨(n : Int) + 1⟩)).2) := Prod.ext hout rfl
    rw [hsend]
    left
    refine ⟨?_, hk⟩
    show wrapInt32 ((s.addUploadCount 1).upload_count + -1) = _
    rw [hobj]
    unfold wrapInt32
    omega
  | ok tag =>
    have hsend : (s.addUploadCount 1).send w (StoreCall.PutObject ⟨(n : Int) + 1⟩)
        = (Outcome.ok tag, ((s.addUploadCount 1).send w
            (StoreCall.PutObject ⟨(n : Int) + 1⟩)).2) := Prod.ext hout rfl
    rw [hsend]
    right
    have hnot : (⟨(n : Int) + 1⟩ : ObjectKey) ∉ ((s.addUploadCount 1).send w
        (StoreCall.PutObject ⟨(n : Int) + 1⟩)).2.keys := by
      show _ ∉ s.keys
      rw [hk]
      simp only [List.mem_map, List.mem_range, not_exists, not_and]
      intro i hi heq
      have := congrArg ObjectKey.objnum heq
      simp only at this
      omega
    have hst : (((s.addUploadCount 1).send w (StoreCall.PutObject ⟨(n : Int) + 1⟩)).2).storeKey
          ⟨(n : Int) + 1⟩
        = { ((s.addUploadCount 1).send w (StoreCall.PutObject ⟨(n : Int) + 1⟩)).2 with
            keys := s.keys ++ [⟨(n : Int) + 1⟩] } := by
      unfold State.storeKey
      exact if_neg hnot
    simp only
    rw [hst]
    refine ⟨hobj.trans (by push_cast; rfl), ?_⟩
    show s.keys ++ [_] = _
    rw [hk, List.range_succ, List.map_append]
    rfl

/-- For one upload worker on the single-part path, from a state in which the registry
matches the counter, the registry matches the counter in the state reached after any
number of rounds below the range of `int32`, whatever the store and the clock. -/
theorem runUpload_registry (w : World) (cfg : Config) (hcfg : cfg.use_multipart_upload = false) :
    ∀ (fuel n : Nat) (s : State), n + fuel ≤ 2147483647 → RegistryMatches n s →
      ∃ m, RegistryMatches m (runUpload w cfg fuel s).state := by
  intro fuel
  induction fuel with
  | zero => intro n s _ h; exact ⟨n, h⟩
  | succ fuel ih =>
    intro n s hn h
    unfold runUpload State.now
    simp only [hcfg]
    by_cases hnow : w.clock s.ticks < s.endtime
    · rw [if_pos hnow]
      simp only [Bool.false_eq_true, if_false]
      have h1 : RegistryMatches n { s with ticks := s.ticks + 1 } := h
      rcases runUploadSinglePart_registry w { s with ticks := s.ticks + 1 } n (by omega) h1
        with h2 | h2
      · exact ih n _ (by omega) h2
      · exact ih (n + 1) _ (by omega) h2
    · rw [if_neg hnow]
      exact ⟨n, h⟩

/-- The registry size equals `upload_count` after an upload phase of one worker on the
single-part path started from `upload_count = 0` and an empty registry, for every
sequence of store outcomes. -/
theorem single_part_registry_size (w : World) (cfg : Config) (endtime : Int) (fuel : Nat)
    (hcfg : cfg.use_multipart_upload = false) (hfuel : fuel ≤ 2147483647) :
    ((runUpload w cfg fuel (resetState endtime)).state.keys.length : Int)
      = (runUpload w cfg fuel (resetState endtime)).state.upload_count := by
  obtain ⟨m, hc, hk⟩ := runUpload_registry w cfg hcfg fuel 0 (resetState endtime) (by omega)
    ⟨rfl, rfl⟩
  rw [hc, hk]
  simp

/-- An instance of `single_part_registry_size`: two rounds, the first `PUT` rejected
and the second accepted, end with one key and `upload_count = 1`. -/
theorem single_part_registry_size_witness :
    ((runUpload worldTwoRounds cfgScenario1 3 (resetState 30)).state.keys.length : Int)
      = (runUpload worldTwoRounds cfgScenario1 3 (resetState 30)).state.upload_count ∧
    (runUpload worldTwoRounds cfgScenario1 3 (resetState 30)).state.keys = [⟨1⟩] ∧
    (runUpload worldTwoRounds cfgScenario1 3 (resetState 30)).state.upload_slowdown_count = 1 :=
  ⟨single_part_registry_size worldTwoRounds cfgScenario1 30 3 rfl (by decide),
   by decide, by decide⟩

/-! ### C11: bounds and termination of the split loop -/

theorem Tiles.start_le_end {a b : Nat} {xs : List ByteSlice} (h : Tiles a xs b) : a ≤ b := by
  induction xs generalizing a with
  | nil => exact Nat.le_of_eq h
  | cons x xs ih =>
    obtain ⟨_, h2, h3⟩ := h
    exact Nat.le_trans (Nat.le_of_lt h2) (ih h3)

/-- The split loop with a positive threshold, run from any loop head at which the
cursor and the remaining count add up to the payload length: it returns for every
store, every byte range it passes to `uploadPart` is non-empty, at most one threshold
long and inside the payload, and the ranges are consecutive from the cursor on,
reaching the end of the payload when the loop ends normally. -/
theorem splitLoop_bounds (w : World) (cfg : Config) (key : ObjectKey)
    (ht : 0 < cfg.multipart_threshold) (hL : cfg.object_data_len < 18446744073709551616) :
    ∀ (fuel curr remaining : Nat) (pn : Int) (cps : List (Option CompletedPart)) (s : State),
      curr + remaining = cfg.object_data_len →
      ceilDiv remaining cfg.multipart_threshold + 3 ≤ fuel →
      ∃ res s' ups last,
        splitLoop w cfg key fuel curr remaining pn cps s = .ret res s' ∧
        s'.uploads = s.uploads ++ ups ∧
        (∀ u ∈ ups, 1 ≤ u.body.len ∧ u.body.len ≤ cfg.multipart_threshold ∧
          u.body.lo ≤ u.body.hi ∧ u.body.hi ≤ cfg.object_data_len) ∧
        Tiles curr (ups.map PartUpload.body) last ∧ last ≤ cfg.object_data_len ∧
        (res ≠ none → last = cfg.object_data_len) := by
  intro fuel
  induction fuel with
  | zero => intro curr remaining pn cps s _ hfuel; omega
  | succ fuel ih =>
    intro curr remaining pn cps s hsum hfuel
    by_cases hr : remaining = 0
    · subst hr
      refine ⟨some cps, s, [], curr, ?_, by simp, by simp, rfl, by omega, fun _ => by omega⟩
      simp [splitLoop]
    · have hstep := ceilDiv_step remaining cfg.multipart_threshold ht hr
      generalize hpl : (if remaining < cfg.multipart_threshold then remaining
        else cfg.multipart_threshold) = pl at hstep
      have hpl1 : 1 ≤ pl := by rw [← hpl]; split <;> omega
      have hpl2 : pl ≤ remaining := by rw [← hpl]; split <;> omega
      have hpl3 : pl ≤ cfg.multipart_threshold := by rw [← hpl]; split <;> omega
      have hadd : addUint64 curr pl = curr + pl := by unfold addUint64; omega
      have hsub : subUint64 remaining pl = remaining - pl := by unfold subUint64; omega
      have hslice : sliceBytes cfg.object_data_len curr (curr + pl) = some ⟨curr, curr + pl⟩ := by
        unfold sliceBytes; rw [if_pos]; omega
      obtain ⟨n, part, err, hup, _, _, _⟩ :=
        uploadPart_returns w key ⟨curr, curr + pl⟩ pn s fuel (by omega)
      rw [splitLoop]
      simp only [hr, ne_eq, not_false_eq_true, if_true, hpl, hadd, hsub, hslice, hup]
      cases err with
      | some e =>
        refine ⟨_, _, [PartUpload.mk pn ⟨curr, curr + pl⟩ false], curr + pl, rfl, ?_, ?_, ?_,
          by omega, fun h => absurd rfl h⟩
        · rw [abortMultipartUpload_state]
          rfl
        · intro u hu
          rw [List.mem_singleton.mp hu]
          simp only [ByteSlice.len]
          omega
        · exact ⟨rfl, (by show curr < curr + pl; omega), rfl⟩
      | none =>
        obtain ⟨res, s', ups', last, hrun, hu, hb, htile, hlast, hend⟩ :=
          ih (curr + pl) (remaining - pl) (wrapInt64 (pn + 1)) (cps ++ [part])
            { ({ s with trace := s.trace ++
                  List.replicate n (StoreCall.UploadPart key pn ⟨curr, curr + pl⟩) } : State) with
              uploads := s.uploads ++ [PartUpload.mk pn ⟨curr, curr + pl⟩ true] }
            (by omega) (by omega)
        refine ⟨res, s', PartUpload.mk pn ⟨curr, curr + pl⟩ true :: ups', last, hrun, ?_, ?_, ?_,
          hlast, hend⟩
        · rw [hu]; simp
        · intro u hu'
          rcases List.mem_cons.mp hu' with rfl | hu'
          · simp only [ByteSlice.len]
            omega
          · exact hb u hu'
        · exact ⟨rfl, (by show curr < curr + pl; omega), htile⟩

/-- One step of the split loop with threshold zero and something remaining: the part
has length zero, the byte range is `object_data[0:0]`, and neither the cursor nor the
remaining count changes. -/
theorem splitLoop_zero_threshold_step (w : World) (cfg : Config) (key : ObjectKey)
    (h0 : cfg.multipart_threshold = 0) (fuel remaining : Nat) (pn : Int)
    (cps : List (Option CompletedPart)) (s : State)
    (hr : remaining ≠ 0) (hlt : remaining < 18446744073709551616) :
    splitLoop w cfg key (fuel + 1) 0 remaining pn cps s =
      match uploadPart fuel w key ⟨0, 0⟩ pn s with
      | .fault f s1 => .fault f s1
      | .ret (_, some _) s1 =>
        .ret none (abortMultipartUpload w key
          (({ s1 with uploads := s1.uploads ++ [PartUpload.mk pn ⟨0, 0⟩ false] }.addUploadSlowdown
            1).addUploadCount (-1))).2
      | .ret (completedPart, none) s1 =>
        splitLoop w cfg key fuel 0 remaining (wrapInt64 (pn + 1)) (cps ++ [completedPart])
          { s1 with uploads := s1.uploads ++ [PartUpload.mk pn ⟨0, 0⟩ true] } := by
  have hadd : addUint64 0 0 = 0 := rfl
  have hsub : subUint64 remaining 0 = remaining := by unfold subUint64; omega
  have hslice : sliceBytes cfg.object_data_len 0 0 = some ⟨0, 0⟩ := by
    unfold sliceBytes; rw [if_pos]; omega
  rw [splitLoop]
  simp only [hr, ne_eq, not_false_eq_true, if_true, h0, Nat.not_lt_zero, if_false, hadd, hsub,
    hslice]

/-- With threshold zero and something remaining the loop condition never fails: the
split loop does not end normally, whatever the store and the fuel. -/
theorem splitLoop_zero_threshold_no_normal_end (w : World) (cfg : Config) (key : ObjectKey)
    (h0 : cfg.multipart_threshold = 0) :
    ∀ (fuel remaining : Nat) (pn : Int) (cps : List (Option CompletedPart)) (s : State),
      remaining ≠ 0 → remaining < 18446744073709551616 →
      ∀ parts s', splitLoop w cfg key fuel 0 remaining pn cps s ≠ .ret (some parts) s' := by
  intro fuel
  induction fuel with
  | zero =>
    intro remaining pn cps s _ _ parts s' h
    simp [splitLoop] at h
  | succ fuel ih =>
    intro remaining pn cps s hr hlt parts s' h
    rw [splitLoop_zero_threshold_step w cfg key h0 fuel remaining pn cps s hr hlt] at h
    rcases hup : uploadPart fuel w key ⟨0, 0⟩ pn s with ⟨⟨cp, err⟩, s1⟩ | ⟨f, s1⟩
    · rw [hup] at h
      cases err with
      | some e => simp at h
      | none => exact ih remaining _ _ _ hr hlt parts s' h
    · rw [hup] at h
      simp at h

/-- The function `uploadPart` against a store that accepts everything: without fuel it
stops at once, with fuel it returns a completed part after one request. -/
theorem uploadPart_all_ok (w : World) (hw : ∀ k, ∃ tag, w.store k = .ok tag)
    (key : ObjectKey) (b : ByteSlice) (pn : Int) (s : State) (fuel : Nat) :
    (fuel = 0 ∧ uploadPart fuel w key b pn s = .fault .outOfFuel s) ∨
    ∃ tag, uploadPart fuel w key b pn s
      = .ret (some ⟨tag, pn⟩, none) { s with trace := s.trace ++ [.UploadPart key pn b] } := by
  cases fuel with
  | zero => exact Or.inl ⟨rfl, rfl⟩
  | succ fuel =>
    obtain ⟨tag, htag⟩ := hw s.trace.length
    exact Or.inr ⟨tag, by simp [uploadPart, uploadPartLoop, State.send, htag, maxRetries]⟩

/-- With threshold zero, something remaining and a store that accepts everything the
split loop uses up any fuel: it never terminates. -/
theorem splitLoop_zero_threshold_diverges (w : World) (cfg : Config) (key : ObjectKey)
    (h0 : cfg.multipart_threshold = 0) (hw : ∀ k, ∃ tag, w.store k = .ok tag) :
    ∀ (fuel remaining : Nat) (pn : Int) (cps : List (Option CompletedPart)) (s : State),
      remaining ≠ 0 → remaining < 18446744073709551616 →
      ∃ s', splitLoop w cfg key fuel 0 remaining pn cps s = .fault .outOfFuel s' := by
  intro fuel
  induction fuel with
  | zero => intro remaining pn cps s _ _; exact ⟨s, rfl⟩
  | succ fuel ih =>
    intro remaining pn cps s hr hlt
    rw [splitLoop_zero_threshold_step w cfg key h0 fuel remaining pn cps s hr hlt]
    rcases uploadPart_all_ok w hw key ⟨0, 0⟩ pn s fuel with ⟨_, hup⟩ | ⟨tag, hup⟩
    · rw [hup]
      exact ⟨s, rfl⟩
    · rw [hup]
      exact ih remaining _ _ _ hr hlt

/-- The retry loop of `uploadPart` with any fuel: it sends some number of requests
for the part, touches neither the registry nor the log of part uploads, and either
returns or has used up its fuel. -/
theorem uploadPartLoop_shape (w : World) (key : ObjectKey) (b : ByteSlice) (pn : Int) :
    ∀ (fuel : Nat) (tryNum : Int) (s : State),
      ∃ s' n, s'.trace = s.trace ++ List.replicate n (StoreCall.UploadPart key pn b) ∧
        s'.uploads = s.uploads ∧ s'.keys = s.keys ∧
        (uploadPartLoop w key b pn fuel tryNum s = .fault .outOfFuel s' ∨
          ∃ part err, uploadPartLoop w key b pn fuel tryNum s = .ret (part, err) s') := by
  intro fuel
  induction fuel with
  | zero =>
    intro tryNum s
    exact ⟨s, 0, by simp, rfl, rfl, Or.inl rfl⟩
  | succ fuel ih =>
    intro tryNum s
    rw [uploadPartLoop]
    by_cases htry : tryNum ≤ maxRetries
    · rw [if_pos htry]
      cases hout : w.store s.trace.length with
      | err er =>
        have hsend : s.send w (StoreCall.UploadPart key pn b)
            = (Outcome.err er, (s.send w (StoreCall.UploadPart key pn b)).2) :=
          Prod.ext hout rfl
        rw [hsend]
        simp only
        by_cases hlast : tryNum = maxRetries
        · rw [if_pos hlast]
          refine ⟨(s.send w (StoreCall.UploadPart key pn b)).2, 1, rfl, rfl, rfl,
            Or.inr ⟨none, some er, ?_⟩⟩
          split <;> rfl
        · rw [if_neg hlast]
          obtain ⟨s', n, htr, hu, hk, hres⟩ :=
            ih (tryNum + 1) (s.send w (StoreCall.UploadPart key pn b)).2
          refine ⟨s', n + 1, ?_, hu, hk, hres⟩
          rw [htr]
          show (s.trace ++ [_]) ++ _ = _
          rw [List.append_assoc]
          rfl
      | ok tag =>
        have hsend : s.send w (StoreCall.UploadPart key pn b)
            = (Outcome.ok tag, (s.send w (StoreCall.UploadPart key pn b)).2) :=
          Prod.ext hout rfl
        rw [hsend]
        exact ⟨(s.send w (StoreCall.UploadPart key pn b)).2, 1, rfl, rfl, rfl,
          Or.inr ⟨_, _, rfl⟩⟩
    · rw [if_neg htry]
      exact ⟨s, 0, by simp, rfl, rfl, Or.inr ⟨_, _, rfl⟩⟩

/-- The split loop with threshold zero and something remaining, for every store and
every fuel: every part it passes to `uploadPart` is `object_data[0:0]`, all requests
it sends before a possible abort are `UploadPart` requests, and either it has used up
its fuel with every part upload so far successful, or it has returned through the
abort path after a part upload that failed. -/
theorem splitLoop_zero_threshold_run (w : World) (cfg : Config) (key : ObjectKey)
    (h0 : cfg.multipart_threshold = 0) :
    ∀ (fuel remaining : Nat) (pn : Int) (cps : List (Option CompletedPart)) (s : State),
      remaining ≠ 0 → remaining < 18446744073709551616 →
      ∃ s' ups pcs,
        s'.uploads = s.uploads ++ ups ∧ s'.keys = s.keys ∧
        (∀ c ∈ pcs, c.isUploadPart = true) ∧
        (∀ u ∈ ups, u.body = ⟨0, 0⟩) ∧
        (∀ u ∈ ups.dropLast, u.ok = true) ∧
        ((splitLoop w cfg key fuel 0 remaining pn cps s = .fault .outOfFuel s' ∧
            (∀ u ∈ ups, u.ok = true) ∧ s'.trace = s.trace ++ pcs) ∨
          (splitLoop w cfg key fuel 0 remaining pn cps s = .ret none s' ∧
            (∃ u, ups.getLast? = some u ∧ u.ok = false) ∧
            s'.trace = s.trace ++ (pcs ++ [StoreCall.AbortMultipartUpload key]))) := by
  intro fuel
  induction fuel with
  | zero =>
    intro remaining pn cps s _ _
    exact ⟨s, [], [], by simp, rfl, by simp, by simp, by simp, Or.inl ⟨rfl, by simp, by simp⟩⟩
  | succ fuel ih =>
    intro remaining pn cps s hr hlt
    rw [splitLoop_zero_threshold_step w cfg key h0 fuel remaining pn cps s hr hlt]
    obtain ⟨s1, n, htr1, hu1, hk1, hres⟩ := uploadPartLoop_shape w key ⟨0, 0⟩ pn fuel 1 s
    have hrep : ∀ c ∈ List.replicate n (StoreCall.UploadPart key pn ⟨0, 0⟩),
        c.isUploadPart = true := by
      intro c hc
      rw [List.eq_of_mem_replicate hc]; rfl
    rcases hres with hf | ⟨part, err, hret⟩
    · have hf' : uploadPart fuel w key ⟨0, 0⟩ pn s = .fault .outOfFuel s1 := hf
      rw [hf']
      exact ⟨s1, [], _, by simp [hu1], hk1, hrep, by simp, by simp,
        Or.inl ⟨rfl, by simp, htr1⟩⟩
    · have hret' : uploadPart fuel w key ⟨0, 0⟩ pn s = .ret (part, err) s1 := hret
      rw [hret']
      cases err with
      | some e =>
        refine ⟨_, [PartUpload.mk pn ⟨0, 0⟩ false], _, ?_, ?_, hrep, ?_, by simp,
          Or.inr ⟨rfl, ⟨_, rfl, rfl⟩, ?_⟩⟩
        · rw [abortMultipartUpload_state]
          show s1.uploads ++ _ = _
          rw [hu1]
        · rw [abortMultipartUpload_state]
          exact hk1
        · intro u hu
          rw [List.mem_singleton.mp hu]
        · rw [abortMultipartUpload_state]
          show s1.trace ++ [_] = _
          rw [htr1, List.append_assoc]
      | none =>
        obtain ⟨s', ups', pcs', hu', hk', hpcs', hb', hd', hres'⟩ :=
          ih remaining (wrapInt64 (pn + 1)) (cps ++ [part])
            { s1 with uploads := s1.uploads ++ [PartUpload.mk pn ⟨0, 0⟩ true] } hr hlt
        have hu2 : s'.uploads = s.uploads ++ (PartUpload.mk pn ⟨0, 0⟩ true :: ups') := by
          rw [hu']
          show (s1.uploads ++ [_]) ++ _ = _
          rw [hu1]; simp
        have hpcs2 : ∀ c ∈ List.replicate n (StoreCall.UploadPart key pn ⟨0, 0⟩) ++ pcs',
            c.isUploadPart = true := by
          intro c hc
          rcases List.mem_append.mp hc with h | h
          · exact hrep c h
          · exact hpcs' c h
        have hb2 : ∀ u ∈ PartUpload.mk pn ⟨0, 0⟩ true :: ups', u.body = ⟨0, 0⟩ := by
          intro u hu
          rcases List.mem_cons.mp hu with rfl | hu
          · rfl
          · exact hb' u hu
        have hd2 : ∀ u ∈ (PartUpload.mk pn ⟨0, 0⟩ true :: ups').dropLast, u.ok = true := by
          intro u hu
          cases hups : ups' with
          | nil => rw [hups] at hu; simp at hu
          | cons a l =>
            rw [hups, List.dropLast_cons₂] at hu
            rcases List.mem_cons.mp hu with rfl | hu
            · rfl
            · exact hd' u (by rw [hups]; exact hu)
        refine ⟨s', PartUpload.mk pn ⟨0, 0⟩ true :: ups',
          List.replicate n (StoreCall.UploadPart key pn ⟨0, 0⟩) ++ pcs', hu2,
          hk'.trans hk1, hpcs2, hb2, hd2, ?_⟩
        rcases hres' with ⟨hrun, hok, htr⟩ | ⟨hrun, ⟨u, hlast, huok⟩, htr⟩
        · refine Or.inl ⟨hrun, ?_, ?_⟩
          · intro u hu
            rcases List.mem_cons.mp hu with rfl | hu
            · rfl
            · exact hok u hu
          · rw [htr]
            show s1.trace ++ _ = _
            rw [htr1, List.append_assoc]
        · refine Or.inr ⟨hrun, ⟨u, ?_, huok⟩, ?_⟩
          · rw [List.getLast?_cons, hlast]; rfl
          · rw [htr]
            show s1.trace ++ _ = _
            rw [htr1, List.append_assoc, List.append_assoc]

/-- C11 (counterexample): with `multipart_threshold = 0` and `object_size = 12 > 0` the
split loop terminates when the part upload fails: against a store that rejects every
request it returns after the three tries of the first (zero-length) part and the
abort call; so does `runUploadMultiPart` when the session is created and the three
tries fail. -/
theorem split_loop_zero_threshold_terminates_on_failure :
    cfgZeroThreshold.multipart_threshold = 0 ∧ 0 < cfgZeroThreshold.object_size ∧
    (∃ s', splitLoop worldAllFail cfgZeroThreshold ⟨1⟩ 4 0 cfgZeroThreshold.object_size 1 []
      (resetState 10) = .ret none s') ∧
    (splitLoop worldAllFail cfgZeroThreshold ⟨1⟩ 4 0 cfgZeroThreshold.object_size 1 []
      (resetState 10)).state.trace
      = [.UploadPart ⟨1⟩ 1 ⟨0, 0⟩, .UploadPart ⟨1⟩ 1 ⟨0, 0⟩, .UploadPart ⟨1⟩ 1 ⟨0, 0⟩,
         .AbortMultipartUpload ⟨1⟩] ∧
    (∃ s', runUploadMultiPart 4 worldPartFails cfgZeroThreshold (resetState 10) = .ret () s') ∧
    (runUploadMultiPart 4 worldPartFails cfgZeroThreshold (resetState 10)).state.trace
      = [.CreateMultipartUpload ⟨1⟩, .UploadPart ⟨1⟩ 1 ⟨0, 0⟩, .UploadPart ⟨1⟩ 1 ⟨0, 0⟩,
         .UploadPart ⟨1⟩ 1 ⟨0, 0⟩, .AbortMultipartUpload ⟨1⟩] := by
  refine ⟨rfl, by decide, ⟨_, rfl⟩, by decide, ⟨_, rfl⟩, by decide⟩

/-- C11 (amended): in the split loop of `runUploadMultiPart`, for every `object_size`
(a `uint64`) and every positive `multipart_threshold` (in particular whenever
`0 < multipart_threshold < object_size`) with a payload of exactly `object_size`
bytes, the loop terminates for every sequence of store outcomes, and every slice
`object_data[curr : curr+partLength]` it takes is within bounds and at least one byte
long: the ranges are consecutive from 0 on, each ends after it starts and at most at
`object_size` (so `curr`, `partLength` and `remaining` never wrap around), and they
reach `object_size` when the loop ends normally.  With `multipart_threshold = 0` and
`object_size > 0`, for every sequence of store outcomes, the loop never ends normally
and every part is zero-length; whatever the fuel, either the loop is still running
and every part upload made so far succeeded, or it was left through the abort path
after a part upload that failed: it never terminates as long as every part upload
succeeds.  In particular it never terminates when every request succeeds. -/
theorem split_loop_bounds_and_termination (w : World) (cfg cfg0 : Config) (key : ObjectKey)
    (s : State) (fuel fuel0 : Nat)
    (ht : 0 < cfg.multipart_threshold)
    (hlen : cfg.object_data_len = cfg.object_size)
    (hsz : cfg.object_size < 18446744073709551616)
    (hfuel : ceilDiv cfg.object_size cfg.multipart_threshold + 3 ≤ fuel)
    (h0 : cfg0.multipart_threshold = 0) (hpos : 0 < cfg0.object_size)
    (hsz0 : cfg0.object_size < 18446744073709551616) :
    (∃ res s' ups last,
      splitLoop w cfg key fuel 0 cfg.object_size 1 [] s = .ret res s' ∧
      s'.uploads = s.uploads ++ ups ∧
      (∀ u ∈ ups, 1 ≤ u.body.len ∧ u.body.len ≤ cfg.multipart_threshold ∧
        u.body.lo ≤ u.body.hi ∧ u.body.hi ≤ cfg.object_size) ∧
      Tiles 0 (ups.map PartUpload.body) last ∧ last ≤ cfg.object_size ∧
      (res ≠ none → last = cfg.object_size)) ∧
    (∀ parts s', splitLoop w cfg0 key fuel0 0 cfg0.object_size 1 [] s ≠ .ret (some parts) s') ∧
    ((∀ k, ∃ tag, w.store k = .ok tag) →
      ∃ s', splitLoop w cfg0 key fuel0 0 cfg0.object_size 1 [] s = .fault .outOfFuel s') ∧
    (∃ s' ups,
      s'.uploads = s.uploads ++ ups ∧
      (∀ u ∈ ups, u.body.len = 0) ∧
      ((splitLoop w cfg0 key fuel0 0 cfg0.object_size 1 [] s = .fault .outOfFuel s' ∧
          ∀ u ∈ ups, u.ok = true) ∨
        (splitLoop w cfg0 key fuel0 0 cfg0.object_size 1 [] s = .ret none s' ∧
          (∃ u, ups.getLast? = some u ∧ u.ok = false) ∧
          (∀ u ∈ ups.dropLast, u.ok = true) ∧
          s'.trace.getLast? = some (StoreCall.AbortMultipartUpload key)))) := by
  refine ⟨?_, ?_, ?_, ?_⟩
  · have h := splitLoop_bounds w cfg key ht (by omega) fuel 0 cfg.object_size 1 [] s
      (by omega) hfuel
    rw [hlen] at h
    exact h
  · exact splitLoop_zero_threshold_no_normal_end w cfg0 key h0 fuel0 cfg0.object_size 1 [] s
      (by omega) hsz0
  · intro hw
    exact splitLoop_zero_threshold_diverges w cfg0 key h0 hw fuel0 cfg0.object_size 1 [] s
      (by omega) hsz0
  · obtain ⟨s', ups, pcs, hu, _, _, hb, hd, hres⟩ :=
      splitLoop_zero_threshold_run w cfg0 key h0 fuel0 cfg0.object_size 1 [] s (by omega) hsz0
    refine ⟨s', ups, hu, ?_, ?_⟩
    · intro u hu'
      rw [hb u hu']
      rfl
    · rcases hres with ⟨hrun, hok, _⟩ | ⟨hrun, hlast, htr⟩
      · exact Or.inl ⟨hrun, hok⟩
      · refine Or.inr ⟨hrun, hlast, hd, ?_⟩
        rw [htr, ← List.append_assoc, List.getLast?_append]
        rfl

set_option maxRecDepth 100000 in
/-- Witness of C11 (amended): 10 000 000 bytes, an exact multiple of the threshold
5 000 000, give two parts of 5 000 000 bytes and no zero-length part; 12 bytes at
threshold 0 use up a fuel of 50 with a store that accepts everything, and a fuel of
30 with a store that rejects every first try of a part and accepts the second, every
part upload having succeeded. -/
theorem split_loop_bounds_and_termination_witness :
    (0 < cfgExactMultiple.multipart_threshold ∧
      cfgExactMultiple.multipart_threshold < cfgExactMultiple.object_size ∧
      cfgExactMultiple.object_data_len = cfgExactMultiple.object_size) ∧
    (∃ res s' ups last,
      splitLoop worldAllOk cfgExactMultiple ⟨1⟩ 5 0 cfgExactMultiple.object_size 1 []
        (resetState 10) = .ret res s' ∧
      s'.uploads = (resetState 10).uploads ++ ups ∧
      (∀ u ∈ ups, 1 ≤ u.body.len ∧ u.body.len ≤ cfgExactMultiple.multipart_threshold ∧
        u.body.lo ≤ u.body.hi ∧ u.body.hi ≤ cfgExactMultiple.object_size) ∧
      Tiles 0 (ups.map PartUpload.body) last ∧ last ≤ cfgExactMultiple.object_size ∧
      (res ≠ none → last = cfgExactMultiple.object_size)) ∧
    (∃ s', splitLoop worldAllOk cfgZeroThreshold ⟨1⟩ 50 0 cfgZeroThreshold.object_size 1 []
      (resetState 10) = .fault .outOfFuel s') ∧
    (splitLoop worldAllOk cfgExactMultiple ⟨1⟩ 5 0 cfgExactMultiple.object_size 1 []
      (resetState 10)).state.uploads
      = [⟨1, ⟨0, 5000000⟩, true⟩, ⟨2, ⟨5000000, 10000000⟩, true⟩] ∧
    (∃ s' ups,
      s'.uploads = (resetState 10).uploads ++ ups ∧
      (∀ u ∈ ups, u.body.len = 0) ∧
      ((splitLoop worldRetryEach cfgZeroThreshold ⟨1⟩ 30 0 cfgZeroThreshold.object_size 1 []
          (resetState 10) = .fault .outOfFuel s' ∧ ∀ u ∈ ups, u.ok = true) ∨
        (splitLoop worldRetryEach cfgZeroThreshold ⟨1⟩ 30 0 cfgZeroThreshold.object_size 1 []
          (resetState 10) = .ret none s' ∧
          (∃ u, ups.getLast? = some u ∧ u.ok = false) ∧
          (∀ u ∈ ups.dropLast, u.ok = true) ∧
          s'.trace.getLast? = some (StoreCall.AbortMultipartUpload ⟨1⟩)))) ∧
    (∃ s', splitLoop worldRetryEach cfgZeroThreshold ⟨1⟩ 30 0 cfgZeroThreshold.object_size 1 []
      (resetState 10) = .fault .outOfFuel s') ∧
    (splitLoop worldRetryEach cfgZeroThreshold ⟨1⟩ 30 0 cfgZeroThreshold.object_size 1 []
      (resetState 10)).state.uploads.length = 28 ∧
    (splitLoop worldRetryEach cfgZeroThreshold ⟨1⟩ 30 0 cfgZeroThreshold.object_size 1 []
      (resetState 10)).state.trace.length = 57 :=
  ⟨by decide,
   (split_loop_bounds_and_termination worldAllOk cfgExactMultiple cfgZeroThreshold ⟨1⟩
      (resetState 10) 5 50 (by decide) rfl (by decide) (by decide) rfl (by decide)
      (by decide)).1,
   (split_loop_bounds_and_termination worldAllOk cfgExactMultiple cfgZeroThreshold ⟨1⟩
      (resetState 10) 5 50 (by decide) rfl (by decide) (by decide) rfl (by decide)
      (by decide)).2.2.1 (fun _ => ⟨7, rfl⟩),
   by decide,
   (split_loop_bounds_and_termination worldRetryEach cfgExactMultiple cfgZeroThreshold ⟨1⟩
      (resetState 10) 5 30 (by decide) rfl (by decide) (by decide) rfl (by decide)
      (by decide)).2.2.2,
   ⟨_, rfl⟩, by decide, by decide⟩

/-! ### C5: the threshold zero -/

/-- One `runUploadMultiPart` with threshold zero, a non-empty payload and a store that
accepts everything, for every fuel: the function has not returned, every part upload
made so far succeeded, and after `CreateMultipartUpload` only `UploadPart` requests
were sent. -/
theorem runUploadMultiPart_zero_threshold (w : World) (cfg : Config) (s : State) (fuel : Nat)
    (h0 : cfg.multipart_threshold = 0) (hpos : 0 < cfg.object_size)
    (hsz : cfg.object_size < 18446744073709551616)
    (hw : ∀ k, ∃ tag, w.store k = .ok tag) :
    ∃ s' ups pcs,
      runUploadMultiPart fuel w cfg s = .fault .outOfFuel s' ∧
      s'.uploads = s.uploads ++ ups ∧ (∀ u ∈ ups, u.ok = true) ∧
      s'.trace = s.trace ++
        StoreCall.CreateMultipartUpload ⟨wrapInt32 (s.upload_count + 1)⟩ :: pcs ∧
      (∀ c ∈ pcs, c.isUploadPart = true) := by
  obtain ⟨tag, hcreate⟩ := hw s.trace.length
  have hsend : (s.addUploadCount 1).send w
      (StoreCall.CreateMultipartUpload ⟨(s.addUploadCount 1).upload_count⟩)
        = (Outcome.ok tag, ((s.addUploadCount 1).send w
            (StoreCall.CreateMultipartUpload ⟨(s.addUploadCount 1).upload_count⟩)).2) :=
    Prod.ext hcreate rfl
  obtain ⟨s', ups, pcs, hu, _, hpcs, _, _, hres⟩ :=
    splitLoop_zero_threshold_run w cfg ⟨(s.addUploadCount 1).upload_count⟩ h0 fuel
      cfg.object_size 1 []
      ((s.addUploadCount 1).send w
        (StoreCall.CreateMultipartUpload ⟨(s.addUploadCount 1).upload_count⟩)).2
      (by omega) hsz
  obtain ⟨s'', hdiv⟩ :=
    splitLoop_zero_threshold_diverges w cfg ⟨(s.addUploadCount 1).upload_count⟩ h0 hw fuel
      cfg.object_size 1 []
      ((s.addUploadCount 1).send w
        (StoreCall.CreateMultipartUpload ⟨(s.addUploadCount 1).upload_count⟩)).2
      (by omega) hsz
  rcases hres with ⟨hrun, hok, htr⟩ | ⟨hrun, _, _⟩
  · refine ⟨s', ups, pcs, ?_, hu, hok, ?_, hpcs⟩
    · simp only [runUploadMultiPart]
      rw [hsend]
      simp only [hrun]
    · rw [htr]
      show (s.trace ++ [_]) ++ pcs = _
      rw [List.append_assoc]
      rfl
  · rw [hdiv] at hrun
    cases hrun

set_option maxRecDepth 100000 in
/-- C5 (counterexample): with `multipart_threshold = 0` and a payload of 12 bytes
against a store that accepts everything, whatever the fuel `runUploadMultiPart` has
not returned, no part upload has failed and no `CompleteMultipartUpload` was sent: with
fuel 40 it has made 39 part uploads, all successful.  And when
`CreateMultipartUpload` itself is rejected no part fails and no completion call is
sent either. -/
theorem zero_threshold_parts_succeed_without_completion :
    cfgZeroThreshold.multipart_threshold = 0 ∧
    (¬ ∃ fuel,
      (∃ s', runUploadMultiPart fuel worldAllOk cfgZeroThreshold (resetState 10) = .ret () s') ∨
      (∃ u ∈ (runUploadMultiPart fuel worldAllOk cfgZeroThreshold (resetState 10)).state.uploads,
        u.ok = false) ∨
      (∃ k parts, StoreCall.CompleteMultipartUpload k parts ∈
        (runUploadMultiPart fuel worldAllOk cfgZeroThreshold (resetState 10)).state.trace)) ∧
    (runUploadMultiPart 40 worldAllOk cfgZeroThreshold (resetState 10)).state.uploads.length
      = 39 ∧
    (runUploadMultiPart 40 worldAllOk cfgZeroThreshold (resetState 10)).state.uploads.all
      (fun u => u.ok) = true ∧
    (runUploadMultiPart 40 worldAllOk cfgZeroThreshold (resetState 10)).state.trace.all
      (fun c => c.isUploadPart || c == StoreCall.CreateMultipartUpload ⟨1⟩) = true ∧
    (runUploadMultiPart 6 worldAllFail cfgScenario2 (resetState 10)).state.uploads = [] ∧
    (runUploadMultiPart 6 worldAllFail cfgScenario2 (resetState 10)).state.trace
      = [.CreateMultipartUpload ⟨1⟩] := by
  refine ⟨rfl, ?_, by decide, by decide, by decide, by decide, by decide⟩
  rintro ⟨fuel, h⟩
  obtain ⟨s', ups, pcs, hrun, hu, hok, htr, hpcs⟩ :=
    runUploadMultiPart_zero_threshold worldAllOk cfgZeroThreshold (resetState 10) fuel rfl
      (by decide) (by decide) (fun _ => ⟨7, rfl⟩)
  rw [hrun] at h
  rcases h with ⟨s1, h⟩ | ⟨u, hmem, hfalse⟩ | ⟨k, parts, hmem⟩
  · cases h
  · have hmem' : u ∈ s'.uploads := hmem
    rw [hu] at hmem'
    have := hok u (by simpa [resetState] using hmem')
    rw [hfalse] at this
    cases this
  · have hmem' : StoreCall.CompleteMultipartUpload k parts ∈ s'.trace := hmem
    rw [htr] at hmem'
    rcases List.mem_append.mp hmem' with h | h
    · simp [resetState] at h
    · rcases List.mem_cons.mp h with h | h
      · cases h
      · have := hpcs _ h
        simp [StoreCall.isUploadPart] at this

end S3Benchmark
